import Mathlib

set_option maxRecDepth 100000

/-!
Verification of the mojoshader preprocessor (src/mojoshader_preprocessor.c)
and the calculator frontend (src/calculator.c).

The development is a shallow embedding of the C sources:

* the macro hashtable (`add_define`, `remove_define`, `find_define`) is a
  function from bucket index to bucket list, with djb's xor hash;
* `handle_pp_define`'s body-buffer construction and the leading/trailing
  `##` stripping are modelled character-exactly;
* the token iterator `_preprocessor_nexttoken`, the conditional handlers,
  `handle_pp_error`, `handle_pp_identifier` and the `#if` expression
  evaluator (`reduce_pp_expression` / `interpret_rpn`) are modelled as a
  fuelled state machine over lexed token lists (the low-level lexer is an
  external collaborator of the C module and is represented by token lists;
  a `space` token stands for one whitespace run, reported only when the C
  code sets `report_whitespace`);
* `handle_macro_args` (argument collection for function-like macros) is
  modelled over the call-site token list;
* the calculator's expression interpreter `run_expr` is modelled with
  rational values in place of C doubles (exact for the integer-valued
  trees examined here);
* `MOJOSHADER_freePreprocessData` is modelled by the list of deallocation
  actions it performs, with the static out-of-memory sentinel record and
  the null pointer as distinguished values.

Machine-integer caveats: hash arithmetic is reduced mod 2^32 exactly as
the C `uint32` does; the evaluator's `long` values are modelled as
unbounded integers (the C type has at least 32 bits and no claim here
exercises overflow).
-/

namespace Mojoshader

/-- One-character string holding an apostrophe (used in error messages). -/
def squote : String := String.singleton (Char.ofNat 39)

/-! ### Macro table (`Define`, `add_define`, `find_define`) -/

/-- `Define` record (mojoshader_internal.h): identifier, definition text,
original text (used by stringification), parameter names and `paramcount`
(with the sentinel semantics: -1 for a `()` declaration, 0 for an
object-like macro, positive for that many named parameters). -/
structure Define where
  identifier : String
  definition : String
  original : Option String
  parameters : List String
  paramcount : Int
deriving DecidableEq, Repr

/-- djb's xor hash (`hash_string_djbxor`), with the `uint32` wrap-around
made explicit: `hash = ((hash << 5) + hash) ^ byte` over the bytes of the
symbol, starting from 5381. -/
def hash_string_djbxor (sym : String) : Nat :=
  sym.data.foldl (fun h c => ((((h <<< 5) + h) % 4294967296) ^^^ c.toNat) % 4294967296) 5381

/-- `hash_define`: the low byte of the djb hash selects one of 256 buckets. -/
def hash_define (sym : String) : Nat := hash_string_djbxor sym % 256

/-- The 256-bucket chained hashtable `ctx->define_hashtable`, as a function
from bucket index to bucket (newest entry first, as in the C chain). -/
def DefineTable : Type := Nat → List Define

/-- The empty hashtable (a zeroed `Context`). -/
def emptyDefineTable : DefineTable := fun _ => []

/-- The message `failf(ctx, "'%s' already defined", sym)` produces. -/
def already_defined_msg (sym : String) : String :=
  squote ++ sym ++ squote ++ " already defined"

/-- `add_define`: walk the bucket of `hash_define sym`; if any entry's
identifier compares equal, stage the duplicate error and leave the table
untouched; otherwise link a fresh `Define` at the front of that bucket.
The first component is the staged failure message, if any. -/
def add_define (t : DefineTable) (sym v : String) (parameters : List String)
    (paramcount : Int) : Option String × DefineTable :=
  let bucket := t (hash_define sym)
  if bucket.any (fun d => d.identifier == sym) then
    (some (already_defined_msg sym), t)
  else
    (none, fun i => if i = hash_define sym then
      ({ identifier := sym, definition := v, original := none,
         parameters := parameters, paramcount := paramcount } : Define) :: bucket
      else t i)

/-- `find_define`, general hashtable path: first match in the bucket of
`hash_define sym`.  (The `__FILE__`/`__LINE__` builtins, whose definitions
are recomputed at lookup time, live outside the hashtable and are
abstracted by the lookup tables of the machine model below.) -/
def find_define (t : DefineTable) (sym : String) : Option Define :=
  (t (hash_define sym)).find? (fun d => d.identifier == sym)

/-! ### `handle_pp_define`: body buffer and the `##`-at-edge check -/

/-- A token of a `#define` replacement body as seen by the buffer-building
loop of `handle_pp_define` (the lexer runs with `report_whitespace` on, so
each whitespace run arrives as one space token). -/
inductive BodyTok where
  | space
  | lex (s : String)
deriving DecidableEq, Repr

/-- The buffer built by `handle_pp_define`'s loop: each space token appends
one `' '`, every other token appends its lexeme. -/
def pp_define_buffer (body : List BodyTok) : List Char :=
  body.foldl (fun acc t => acc ++ match t with | .space => [' '] | .lex s => s.data) []

/-- Lines 1180-1202 of handle_pp_define: with `buflen` the C string length
plus one, strip a leading `"##"` (when `buflen > 2`), then look at the end
of the (possibly shortened) string, step over a single trailing space, and
strip a trailing `"##"`; the flag records whether either strip fired. -/
def strip_hashhash (s : List Char) : Bool × List Char :=
  let b0 := s.length + 1
  let lead := decide (b0 > 2) && decide (s.getD 0 ' ' = '#') && decide (s.getD 1 ' ' = '#')
  let s1 := if lead then s.drop 2 else s
  let b1 := s1.length + 1
  if b1 > 2 then
    let sp := s1.getD (b1 - 2) ' ' = ' '
    let p := if sp then b1 - 3 else b1 - 2
    let b2 := if sp then b1 - 1 else b1
    if decide (b2 > 2) && decide (s1.getD p ' ' = '#') && decide (s1.getD (p - 1) ' ' = '#') then
      (true, s1.take (p - 1))
    else (lead, s1)
  else (lead, s1)

/-- The message of `fail(ctx, "'##' cannot appear at either end of a macro expansion")`. -/
def hashhash_msg : String :=
  squote ++ "##" ++ squote ++ " cannot appear at either end of a macro expansion"

/-- `handle_pp_define`, from the point where the macro name and parameter
list have been parsed: reject the name `defined`, build the body buffer,
apply the `##` edge check, and in every case (error or not) hand the
resulting definition to `add_define`.  Returns the list of failure
messages raised (in order; the C `failstr` retains the last one) and the
resulting table. -/
def handle_pp_define (t : DefineTable) (sym : String) (parameters : List String)
    (paramcount : Int) (body : List BodyTok) : List String × DefineTable :=
  if sym = "defined" then
    ([squote ++ "defined" ++ squote ++ " cannot be used as a macro name"], t)
  else
    let r := strip_hashhash (pp_define_buffer body)
    let errs := if r.1 then [hashhash_msg] else []
    match add_define t sym (String.mk r.2) parameters paramcount with
    | (some e, t') => (errs ++ [e], t')
    | (none, t') => (errs, t')

/-- The spec's side of the `##`-at-edge condition, stated positionally on
the flattened body buffer: the buffer begins with `##`, or it ends with
`##`, or it ends with `##` followed by one space (the trailing-space shape
the C code explicitly steps over). -/
def hashhash_at_edge (s : List Char) : Bool :=
  (decide (2 ≤ s.length) && decide (s.getD 0 ' ' = '#') && decide (s.getD 1 ' ' = '#')) ||
  (decide (2 ≤ s.length) && decide (s.getD (s.length - 1) ' ' = '#')
    && decide (s.getD (s.length - 2) ' ' = '#')) ||
  (decide (3 ≤ s.length) && decide (s.getD (s.length - 1) ' ' = ' ')
    && decide (s.getD (s.length - 2) ' ' = '#') && decide (s.getD (s.length - 3) ' ' = '#'))

/-- Key fact for claim C2: whenever the flattened body buffer has `##` at
either end (in the positional sense of `hashhash_at_edge`), the stripping
pass of `handle_pp_define` reports the error. -/
theorem strip_hashhash_fires (s : List Char) (h : hashhash_at_edge s = true) :
    (strip_hashhash s).1 = true := by
  unfold hashhash_at_edge at h
  simp only [Bool.or_eq_true, Bool.and_eq_true, decide_eq_true_eq] at h
  unfold strip_hashhash
  by_cases hlead : (decide (s.length + 1 > 2) && decide (s.getD 0 ' ' = '#')
      && decide (s.getD 1 ' ' = '#')) = true
  · simp only [hlead]
    split_ifs <;> rfl
  · -- leading strip did not fire: the edge hypothesis forces a trailing hit
    have hlf : (decide (s.length + 1 > 2) && decide (s.getD 0 ' ' = '#')
        && decide (s.getD 1 ' ' = '#')) = false := by
      rcases Bool.eq_false_or_eq_true (decide (s.length + 1 > 2) && decide (s.getD 0 ' ' = '#')
        && decide (s.getD 1 ' ' = '#')) with hb | hb
      · exact absurd hb hlead
      · exact hb
    simp only [hlf, Bool.false_eq_true, if_false]
    rcases h with (h | h) | h
    · obtain ⟨⟨h2, h0⟩, h1⟩ := h
      exact absurd (by
        simp only [Bool.and_eq_true, decide_eq_true_eq]
        exact ⟨⟨by omega, h0⟩, h1⟩) hlead
    · -- s ends with "##"
      obtain ⟨⟨hlen, hlast⟩, hprev⟩ := h
      have hlen3 : 3 ≤ s.length := by
        rcases Nat.lt_or_ge s.length 3 with hl | hl
        · -- length 2 would force a leading "##", contradicting hlead
          have h2 : s.length = 2 := by omega
          have h0 : s.getD 0 ' ' = '#' := by
            have hx := hprev; rw [h2] at hx; simpa using hx
          have h1 : s.getD 1 ' ' = '#' := by
            have hx := hlast; rw [h2] at hx; simpa using hx
          exact absurd (by
            simp only [Bool.and_eq_true, decide_eq_true_eq]
            exact ⟨⟨by omega, h0⟩, h1⟩) hlead
        · exact hl
      have hb : s.length + 1 > 2 := by omega
      rw [if_pos hb]
      have e1 : s.length + 1 - 2 = s.length - 1 := by omega
      simp only [e1]
      have hsp : ¬ (s.getD (s.length - 1) ' ' = ' ') := by
        rw [hlast]; intro hx; exact absurd hx (by decide)
      simp only [if_neg hsp]
      have e2 : s.length - 1 - 1 = s.length - 2 := by omega
      simp only [e2]
      rw [if_pos]
      · simp only [Bool.and_eq_true, decide_eq_true_eq]
        exact ⟨⟨by omega, hlast⟩, hprev⟩
    · -- s ends with "## "
      obtain ⟨⟨⟨hlen, hlast⟩, hprev⟩, hprev2⟩ := h
      have hlen4 : 4 ≤ s.length := by
        rcases Nat.lt_or_ge s.length 4 with hl | hl
        · have h3 : s.length = 3 := by omega
          have h0 : s.getD 0 ' ' = '#' := by
            have hx := hprev2; rw [h3] at hx; simpa using hx
          have h1 : s.getD 1 ' ' = '#' := by
            have hx := hprev; rw [h3] at hx; simpa using hx
          exact absurd (by
            simp only [Bool.and_eq_true, decide_eq_true_eq]
            exact ⟨⟨by omega, h0⟩, h1⟩) hlead
        · exact hl
      have hb : s.length + 1 > 2 := by omega
      rw [if_pos hb]
      have e1 : s.length + 1 - 2 = s.length - 1 := by omega
      simp only [e1]
      have hsp : s.getD (s.length - 1) ' ' = ' ' := hlast
      simp only [if_pos hsp]
      have e2 : s.length + 1 - 3 = s.length - 2 := by omega
      have e3 : s.length - 2 - 1 = s.length - 3 := by omega
      simp only [e2, e3]
      rw [if_pos]
      · simp only [Bool.and_eq_true, decide_eq_true_eq]
        exact ⟨⟨by omega, hprev⟩, hprev2⟩

/-- C1: for every macro table and every name already present in it, a
subsequent `add_define` of that name fails with the staged error
`'<name>' already defined` and returns the table unchanged: the existing
definition is not replaced and no new entry is inserted. -/
theorem C1_duplicate_define_rejected (t : DefineTable) (sym v : String)
    (ps : List String) (n : Int) (h : (find_define t sym).isSome = true) :
    add_define t sym v ps n = (some (already_defined_msg sym), t) := by
  unfold find_define at h
  rw [List.find?_isSome] at h
  unfold add_define
  rw [if_pos]
  rw [List.any_eq_true]
  exact h

/-- Concrete instantiation used as the table of the C1 witness: the table
after a successful `#define A 1`. -/
def c1_table : DefineTable := (add_define emptyDefineTable "A" "1" [] 0).2

/-- Witness for C1 at a concrete table containing `A`. -/
theorem C1_witness :
    (find_define c1_table "A").isSome = true ∧
    add_define c1_table "A" "2" [] 0 = (some (already_defined_msg "A"), c1_table) :=
  ⟨by decide, C1_duplicate_define_rejected c1_table "A" "2" [] 0 (by decide)⟩

/-- C2 counterexample: the claim says a `#define` whose body starts or ends
with `##` is rejected with nothing added to the table.  On the body `##`
the error is raised, but `handle_pp_define` still calls `add_define`: the
macro `A` ends up in the table (with the `##` stripped, here an empty
definition), so the definition was not rejected. -/
theorem C2_counterexample :
    (handle_pp_define emptyDefineTable "A" [] 0 [BodyTok.lex "##"]).1 = [hashhash_msg] ∧
    find_define (handle_pp_define emptyDefineTable "A" [] 0 [BodyTok.lex "##"]).2 "A" =
      some { identifier := "A", definition := "", original := none,
             parameters := [], paramcount := 0 } := by
  constructor
  · decide
  · decide

/-- C2 (amended): for every `#define` of a fresh name (other than the
reserved `defined`) whose flattened body has `##` at either end (leading
`##`, trailing `##`, or trailing `##` plus one space), `handle_pp_define`
raises exactly the error `'##' cannot appear at either end of a macro
expansion`, but the macro is nevertheless added to the table, with the
leading/trailing `##` stripped from its definition text. -/
theorem C2_hashhash_error_still_defines (t : DefineTable) (sym : String)
    (ps : List String) (pc : Int) (body : List BodyTok)
    (hdef : sym ≠ "defined")
    (hedge : hashhash_at_edge (pp_define_buffer body) = true)
    (hnew : find_define t sym = none) :
    (handle_pp_define t sym ps pc body).1 = [hashhash_msg] ∧
    find_define (handle_pp_define t sym ps pc body).2 sym =
      some { identifier := sym,
             definition := String.mk (strip_hashhash (pp_define_buffer body)).2,
             original := none, parameters := ps, paramcount := pc } := by
  have herr := strip_hashhash_fires (pp_define_buffer body) hedge
  have hany : ((t (hash_define sym)).any (fun d => d.identifier == sym)) = false := by
    unfold find_define at hnew
    rw [List.find?_eq_none] at hnew
    rw [List.any_eq_false]
    intro d hd
    simpa using hnew d hd
  unfold handle_pp_define add_define
  rw [if_neg hdef]
  simp only [herr, if_true, hany, Bool.false_eq_true, if_false]
  constructor
  · trivial
  · unfold find_define
    simp [List.find?_cons]

/-- Witness for the amended C2 theorem at the body `x ##`. -/
theorem C2_witness :
    (("B" : String) ≠ "defined" ∧
     hashhash_at_edge (pp_define_buffer [BodyTok.lex "x", BodyTok.space, BodyTok.lex "##"]) = true ∧
     find_define emptyDefineTable "B" = none) ∧
    (handle_pp_define emptyDefineTable "B" [] 0
        [BodyTok.lex "x", BodyTok.space, BodyTok.lex "##"]).1 = [hashhash_msg] ∧
    find_define (handle_pp_define emptyDefineTable "B" [] 0
        [BodyTok.lex "x", BodyTok.space, BodyTok.lex "##"]).2 "B" =
      some { identifier := "B",
             definition := String.mk (strip_hashhash (pp_define_buffer
               [BodyTok.lex "x", BodyTok.space, BodyTok.lex "##"])).2,
             original := none, parameters := [], paramcount := 0 } :=
  ⟨⟨by decide, by decide, by decide⟩,
   C2_hashhash_error_still_defines emptyDefineTable "B" [] 0
     [BodyTok.lex "x", BodyTok.space, BodyTok.lex "##"]
     (by decide) (by decide) (by decide)⟩

/-! ### Calculator expression interpreter (src/calculator.c) -/

/-- The `Operator` enum of calculator.c, without the range markers (which
are never stored in a node).  `opCode` below assigns each constructor its
C enum value, so the range tests translate literally. -/
inductive CalcOp where
  | OP_POSTINCREMENT | OP_POSTDECREMENT | OP_PREINCREMENT | OP_PREDECREMENT
  | OP_NEGATE | OP_COMPLEMENT | OP_NOT
  | OP_DEREF_ARRAY | OP_CALLFUNC | OP_DEREF_STRUCT | OP_COMMA
  | OP_MULTIPLY | OP_DIVIDE | OP_MODULO | OP_ADD | OP_SUBTRACT
  | OP_LSHIFT | OP_RSHIFT | OP_LESSTHAN | OP_GREATERTHAN
  | OP_LESSTHANOREQUAL | OP_GREATERTHANOREQUAL | OP_EQUAL | OP_NOTEQUAL
  | OP_BINARYAND | OP_BINARYXOR | OP_BINARYOR | OP_LOGICALAND | OP_LOGICALOR
  | OP_ASSIGN | OP_MULASSIGN | OP_DIVASSIGN | OP_MODASSIGN | OP_ADDASSIGN
  | OP_SUBASSIGN | OP_LSHIFTASSIGN | OP_RSHIFTASSIGN | OP_ANDASSIGN
  | OP_XORASSIGN | OP_ORASSIGN
  | OP_CONDITIONAL
  | OP_IDENTIFIER | OP_INT_LITERAL | OP_FLOAT_LITERAL | OP_STRING_LITERAL
deriving DecidableEq, Repr

/-- C enum values of the operators (with the implicit range markers at
OP_START_RANGE_UNARY = 0, OP_END_RANGE_UNARY = 8, OP_START_RANGE_BINARY = 9,
OP_END_RANGE_BINARY = 43, OP_START_RANGE_TERNARY = 44,
OP_END_RANGE_TERNARY = 46, OP_START_RANGE_DATA = 47). -/
def opCode : CalcOp → Nat
  | .OP_POSTINCREMENT => 1
  | .OP_POSTDECREMENT => 2
  | .OP_PREINCREMENT => 3
  | .OP_PREDECREMENT => 4
  | .OP_NEGATE => 5
  | .OP_COMPLEMENT => 6
  | .OP_NOT => 7
  | .OP_DEREF_ARRAY => 10
  | .OP_CALLFUNC => 11
  | .OP_DEREF_STRUCT => 12
  | .OP_COMMA => 13
  | .OP_MULTIPLY => 14
  | .OP_DIVIDE => 15
  | .OP_MODULO => 16
  | .OP_ADD => 17
  | .OP_SUBTRACT => 18
  | .OP_LSHIFT => 19
  | .OP_RSHIFT => 20
  | .OP_LESSTHAN => 21
  | .OP_GREATERTHAN => 22
  | .OP_LESSTHANOREQUAL => 23
  | .OP_GREATERTHANOREQUAL => 24
  | .OP_EQUAL => 25
  | .OP_NOTEQUAL => 26
  | .OP_BINARYAND => 27
  | .OP_BINARYXOR => 28
  | .OP_BINARYOR => 29
  | .OP_LOGICALAND => 30
  | .OP_LOGICALOR => 31
  | .OP_ASSIGN => 32
  | .OP_MULASSIGN => 33
  | .OP_DIVASSIGN => 34
  | .OP_MODASSIGN => 35
  | .OP_ADDASSIGN => 36
  | .OP_SUBASSIGN => 37
  | .OP_LSHIFTASSIGN => 38
  | .OP_RSHIFTASSIGN => 39
  | .OP_ANDASSIGN => 40
  | .OP_XORASSIGN => 41
  | .OP_ORASSIGN => 42
  | .OP_CONDITIONAL => 45
  | .OP_IDENTIFIER => 48
  | .OP_INT_LITERAL => 49
  | .OP_FLOAT_LITERAL => 50
  | .OP_STRING_LITERAL => 51

/-- `operator_is_unary`: strictly between the unary range markers. -/
def operator_is_unary (op : CalcOp) : Bool :=
  decide (0 < opCode op) && decide (opCode op < 8)

/-- `operator_is_binary`: strictly between the binary range markers. -/
def operator_is_binary (op : CalcOp) : Bool :=
  decide (9 < opCode op) && decide (opCode op < 43)

/-- `operator_is_ternary`: strictly between the ternary range markers. -/
def operator_is_ternary (op : CalcOp) : Bool :=
  decide (44 < opCode op) && decide (opCode op < 46)

/-- The calculator's expression tree: unary, binary and ternary nodes plus
the literal leaves (identifiers and string literals evaluate through the
final `return 0.0` of `run_expr`). -/
inductive CalcExpr where
  | unary (op : CalcOp) (operand : CalcExpr)
  | binary (op : CalcOp) (left right : CalcExpr)
  | ternary (op : CalcOp) (left center right : CalcExpr)
  | intLiteral (value : Int)
  | floatLiteral (value : ℚ)
  | stringLiteral (s : String)
  | identifier (s : String)
deriving DecidableEq, Repr

/-- The C `(int64)` cast of a double: truncation toward zero (modelled on
the rationals standing in for doubles; int64 overflow is out of scope). -/
def c_int64 (q : ℚ) : Int := Int.tdiv q.num (q.den : Int)

/-- `run_expr` (calculator.c lines 415-490), with doubles modelled as
rationals.  Each branch follows the C chain for its node shape; a node
whose operator does not belong to its shape falls through to the final
`return 0.0` (the C code would reinterpret memory there; the parser never
builds such nodes, cf. the asserts in `new_unary_expr` etc.).  The
`OP_NOTEQUAL` branch compares with `==`, exactly as the source does. -/
def run_expr : CalcExpr → ℚ
  | .unary op e =>
    if op = .OP_NEGATE then - run_expr e
    else if op = .OP_COMPLEMENT then ((- (c_int64 (run_expr e)) - 1 : Int) : ℚ)
    else if op = .OP_NOT then (if run_expr e = 0 then 1 else 0)
    else 0
  | .binary op l r =>
    if op = .OP_MULTIPLY then run_expr l * run_expr r
    else if op = .OP_DIVIDE then run_expr l / run_expr r
    else if op = .OP_ADD then run_expr l + run_expr r
    else if op = .OP_SUBTRACT then run_expr l - run_expr r
    else if op = .OP_LESSTHAN then (if run_expr l < run_expr r then 1 else 0)
    else if op = .OP_GREATERTHAN then (if run_expr r < run_expr l then 1 else 0)
    else if op = .OP_LESSTHANOREQUAL then (if run_expr l ≤ run_expr r then 1 else 0)
    else if op = .OP_GREATERTHANOREQUAL then (if run_expr r ≤ run_expr l then 1 else 0)
    else if op = .OP_EQUAL then (if run_expr l = run_expr r then 1 else 0)
    else if op = .OP_NOTEQUAL then (if run_expr l = run_expr r then 1 else 0)
    else if op = .OP_LOGICALAND then
      (if c_int64 (run_expr l) ≠ 0 ∧ c_int64 (run_expr r) ≠ 0 then 1 else 0)
    else if op = .OP_LOGICALOR then
      (if c_int64 (run_expr l) ≠ 0 ∨ c_int64 (run_expr r) ≠ 0 then 1 else 0)
    else if op = .OP_BINARYAND then ((Int.land (c_int64 (run_expr l)) (c_int64 (run_expr r)) : Int) : ℚ)
    else if op = .OP_BINARYOR then ((Int.lor (c_int64 (run_expr l)) (c_int64 (run_expr r)) : Int) : ℚ)
    else if op = .OP_BINARYXOR then ((Int.xor (c_int64 (run_expr l)) (c_int64 (run_expr r)) : Int) : ℚ)
    else if op = .OP_LSHIFT then
      ((c_int64 (run_expr l) * 2 ^ (c_int64 (run_expr r)).toNat : Int) : ℚ)
    else if op = .OP_RSHIFT then
      ((Int.fdiv (c_int64 (run_expr l)) (2 ^ (c_int64 (run_expr r)).toNat) : Int) : ℚ)
    else if op = .OP_MODULO then
      ((Int.tmod (c_int64 (run_expr l)) (c_int64 (run_expr r)) : Int) : ℚ)
    else 0
  | .ternary op l c r =>
    if op = .OP_CONDITIONAL then (if run_expr l ≠ 0 then run_expr c else run_expr r)
    else 0
  | .intLiteral n => (n : ℚ)
  | .floatLiteral q => q
  | .stringLiteral _ => 0
  | .identifier _ => 0

/-- C8: the claim asks for correct C `!=` semantics of the `OP_NOTEQUAL`
branch: 1.0 when the children differ, 0.0 when equal.  The code compares
with `==` instead, so on children 1 and 2 it returns 0 where the claim
requires 1 (and it agrees with the `OP_EQUAL` branch everywhere). -/
theorem C8_notequal_evaluates_like_equal :
    run_expr (.binary .OP_NOTEQUAL (.intLiteral 1) (.intLiteral 2)) = 0 ∧
    run_expr (.binary .OP_NOTEQUAL (.intLiteral 1) (.intLiteral 1)) = 1 ∧
    run_expr (.binary .OP_NOTEQUAL (.intLiteral 1) (.intLiteral 2)) =
      run_expr (.binary .OP_EQUAL (.intLiteral 1) (.intLiteral 2)) := by
  refine ⟨?_, ?_, ?_⟩ <;> simp [run_expr]

/-! ### `MOJOSHADER_freePreprocessData` (flattening API teardown) -/

/-- One entry of the `errors` array of a `MOJOSHADER_preprocessData`. -/
structure MojoshaderError where
  error : String
  filename : String
  error_position : Int
deriving DecidableEq, Repr

/-- The parts of a `MOJOSHADER_preprocessData` record that
`MOJOSHADER_freePreprocessData` touches. -/
structure PreprocessData where
  error_count : Nat
  errors : List MojoshaderError
  output : String
  output_len : Nat
deriving DecidableEq, Repr

/-- The argument of `MOJOSHADER_freePreprocessData`: the null pointer, the
address of the static `out_of_mem_data_preprocessor` record (the sentinel
returned on allocation failure, `{1, &MOJOSHADER_out_of_mem_error, 0, 0,
0, 0, 0}`), or a pointer to an ordinary heap-allocated record. -/
inductive PreprocessDataPtr where
  | nullPtr
  | out_of_mem_sentinel
  | valid (d : PreprocessData)
deriving DecidableEq, Repr

/-- The deallocations `MOJOSHADER_freePreprocessData` performs. -/
inductive FreeAction where
  | freeOutput
  | freeErrorString (i : Nat)
  | freeErrorFilename (i : Nat)
  | freeErrorsArray
  | freeRecord
deriving DecidableEq, Repr

/-- `MOJOSHADER_freePreprocessData`, modelled by the list of deallocation
actions it performs in order: nothing at all for the null pointer or the
out-of-memory sentinel (the early return at line 2461), otherwise the
output string, each error's message and filename, the errors array, and
the record itself. -/
def MOJOSHADER_freePreprocessData : PreprocessDataPtr → List FreeAction
  | .nullPtr => []
  | .out_of_mem_sentinel => []
  | .valid d =>
    FreeAction.freeOutput ::
      ((List.range d.error_count).foldr
        (fun i acc => FreeAction.freeErrorString i :: FreeAction.freeErrorFilename i :: acc)
        [FreeAction.freeErrorsArray, FreeAction.freeRecord])

/-- C10: calling `MOJOSHADER_freePreprocessData` with a null pointer or
with the static out-of-memory sentinel record is a no-op: it returns
without performing any deallocation, so the sentinel is never corrupted. -/
theorem C10_free_null_and_sentinel_noop :
    MOJOSHADER_freePreprocessData .nullPtr = [] ∧
    MOJOSHADER_freePreprocessData .out_of_mem_sentinel = [] := by
  exact ⟨rfl, rfl⟩

/-! ### Token iterator machine

The lexer is an external collaborator; a source frame is represented by
the list of tokens it lexes to.  The machine covers the token alphabet the
claims exercise: identifiers, integer literals, newlines, whitespace runs
(visible only to handlers that set `report_whitespace`), the operator
tokens of the `#if` evaluator, and the conditional/`#error` directives.
`#include`, `#line`, `#define`, `#undef` and `#pragma` directive tokens
are outside the modelled alphabet (their handlers never touch the
conditional stack or the recursion counter). -/

/-- A lexed token (`Token` of mojoshader_internal.h, restricted as above).
`punct c` is a single-character token; `unknown` is `TOKEN_UNKNOWN`, the
initial `previous_token` of `reduce_pp_expression`; `unaryPlus` and
`unaryMinus` are the internal `TOKEN_PP_UNARY_*` pseudo-tokens. -/
inductive Tok where
  | ident (s : String)
  | intlit (n : Nat)
  | newline
  | space
  | punct (c : Char)
  | unknown
  | oror
  | andand
  | neq
  | eql
  | leq
  | geq
  | lshift
  | rshift
  | hashhash
  | hash
  | unaryPlus
  | unaryMinus
  | ppIf
  | ppIfdef
  | ppIfndef
  | ppElse
  | ppElif
  | ppEndif
  | ppError
deriving DecidableEq, Repr

/-- The lexeme of a token (`state->token` / `state->tokenlen`), used when a
handler copies token text into a buffer. -/
def Tok.lexeme : Tok → String
  | .ident s => s
  | .intlit n => Nat.repr n
  | .newline => "\n"
  | .space => " "
  | .punct c => String.singleton c
  | .unknown => ""
  | .oror => "||"
  | .andand => "&&"
  | .neq => "!="
  | .eql => "=="
  | .leq => "<="
  | .geq => ">="
  | .lshift => "<<"
  | .rshift => ">>"
  | .hashhash => "##"
  | .hash => "#"
  | .unaryPlus => "+"
  | .unaryMinus => "-"
  | .ppIf => "#if"
  | .ppIfdef => "#ifdef"
  | .ppIfndef => "#ifndef"
  | .ppElse => "#else"
  | .ppElif => "#elif"
  | .ppEndif => "#endif"
  | .ppError => "#error"

/-- Whether a token is `TOKEN_IDENTIFIER`. -/
def Tok.isIdent : Tok → Bool
  | .ident _ => true
  | _ => false

/-- Whether a token is `TOKEN_INT_LITERAL`. -/
def Tok.isIntLit : Tok → Bool
  | .intlit _ => true
  | _ => false

/-- The lexer with `report_whitespace` off: whitespace runs are consumed
silently; `none` is `TOKEN_EOI` (the frame is exhausted). -/
def lexNS : List Tok → Option (Tok × List Tok)
  | [] => none
  | .space :: ts => lexNS ts
  | t :: ts => some (t, ts)

/-- `require_newline`: lex one token and push it back; end of input or a
newline counts as an end of line.  Returns the flag and the token list
after the pushback (the consumed whitespace stays consumed; the C
pushback replays only the returned token). -/
def require_newline (ts : List Tok) : Bool × List Tok :=
  match lexNS ts with
  | none => (true, [])
  | some (t, r) => ((t = Tok.newline), t :: r)

/-- `find_precedence` (lines 1645-1668): precedence of the evaluator's
operators, -1 for anything else. -/
def find_precedence : Tok → Int
  | .oror => 0
  | .andand => 1
  | .punct c =>
    if c = '|' then 2
    else if c = '^' then 3
    else if c = '&' then 4
    else if c = '<' then 7
    else if c = '>' then 7
    else if c = '-' then 9
    else if c = '+' then 9
    else if c = '%' then 10
    else if c = '/' then 10
    else if c = '*' then 10
    else if c = '!' then 11
    else if c = '~' then 11
    else -1
  | .neq => 5
  | .eql => 6
  | .leq => 7
  | .geq => 7
  | .lshift => 8
  | .rshift => 8
  | .unaryPlus => 11
  | .unaryMinus => 11
  | _ => -1

/-- Lines 1780-1794 of `reduce_pp_expression`: `!` and `~` are
right-associative; a `-` or `+` is the binary left-associative operator
exactly when the previous token was an integer literal and is rewritten to
the unary pseudo-token otherwise; everything else is left-associative. -/
def classify (t prev : Tok) : Tok × Bool :=
  if t = Tok.punct '!' ∨ t = Tok.punct '~' then (t, false)
  else if t = Tok.punct '-' then
    (if prev.isIntLit then (t, true) else (Tok.unaryMinus, false))
  else if t = Tok.punct '+' then
    (if prev.isIntLit then (t, true) else (Tok.unaryPlus, false))
  else (t, true)

/-- One entry of the reverse-polish output (`RpnTokens`): a pushed value or
an operator token. -/
inductive RpnTok where
  | num (n : Int)
  | op (t : Tok)
deriving DecidableEq, Repr

/-- The semantics of an operator in `interpret_rpn`'s switch: a unary or a
binary operation on `long` values (modelled as unbounded integers), or
none for the `default: return 0` case.  `/` and `%` truncate toward zero;
the shifts follow the usual arithmetic-shift reading of the C operators;
`!`, comparisons and the logical connectives yield 1 or 0. -/
def rpn_op_kind : Tok → Option (Sum (Int → Int) (Int → Int → Int))
  | .punct '!' => some (Sum.inl fun v => if v = 0 then 1 else 0)
  | .punct '~' => some (Sum.inl fun v => -v - 1)
  | .unaryMinus => some (Sum.inl fun v => -v)
  | .unaryPlus => some (Sum.inl fun v => v)
  | .oror => some (Sum.inr fun a b => if a ≠ 0 ∨ b ≠ 0 then 1 else 0)
  | .andand => some (Sum.inr fun a b => if a ≠ 0 ∧ b ≠ 0 then 1 else 0)
  | .punct '|' => some (Sum.inr fun a b => Int.lor a b)
  | .punct '^' => some (Sum.inr fun a b => Int.xor a b)
  | .punct '&' => some (Sum.inr fun a b => Int.land a b)
  | .neq => some (Sum.inr fun a b => if a ≠ b then 1 else 0)
  | .eql => some (Sum.inr fun a b => if a = b then 1 else 0)
  | .punct '<' => some (Sum.inr fun a b => if a < b then 1 else 0)
  | .punct '>' => some (Sum.inr fun a b => if b < a then 1 else 0)
  | .leq => some (Sum.inr fun a b => if a ≤ b then 1 else 0)
  | .geq => some (Sum.inr fun a b => if b ≤ a then 1 else 0)
  | .lshift => some (Sum.inr fun a b => a * 2 ^ b.toNat)
  | .rshift => some (Sum.inr fun a b => Int.fdiv a (2 ^ b.toNat))
  | .punct '-' => some (Sum.inr fun a b => a - b)
  | .punct '+' => some (Sum.inr fun a b => a + b)
  | .punct '%' => some (Sum.inr fun a b => Int.tmod a b)
  | .punct '/' => some (Sum.inr fun a b => Int.tdiv a b)
  | .punct '*' => some (Sum.inr fun a b => a * b)
  | _ => none

/-- `interpret_rpn`: consume the reverse-polish list with a value stack
(head is the top, the C `stack[stacksize-1]`); `none` models the error
returns (stack underflow, unknown operator, or a final stack size other
than one). -/
def interpret_rpn : List RpnTok → List Int → Option Int
  | [], stk =>
    match stk with
    | [v] => some v
    | _ => none
  | .num n :: rest, stk => interpret_rpn rest (n :: stk)
  | .op t :: rest, stk =>
    match rpn_op_kind t with
    | none => none
    | some (Sum.inl f) =>
      match stk with
      | v :: s => interpret_rpn rest (f v :: s)
      | [] => none
    | some (Sum.inr f) =>
      match stk with
      | b :: a :: s => interpret_rpn rest (f a b :: s)
      | _ => none

/-- Message of `fail(ctx, "operator 'defined' requires an identifier")`. -/
def defined_requires_msg : String :=
  "operator " ++ squote ++ "defined" ++ squote ++ " requires an identifier"

/-- Message of `fail(ctx, "Unmatched ')'")`. -/
def unmatched_paren_msg : String := "Unmatched " ++ squote ++ ")" ++ squote

/-- Result of the `defined`-operand handling inside
`reduce_pp_expression`: an error message or the 0/1 operand value, plus
the tokens left in the frame. -/
inductive DefinedRes where
  | derr (msg : String) (rest : List Tok)
  | dok (v : Int) (rest : List Tok)
deriving Repr

/-- Lines 1810-1834 of `reduce_pp_expression`: after `defined`, lex one
token; an opening parenthesis (no nesting) makes a closing one mandatory
after the identifier; a non-identifier operand is an error; the operand
value is 1 exactly when the identifier is currently a macro (`tbl` is the
`find_define` success predicate, covering the `__FILE__`/`__LINE__`
builtins as well as the hashtable). -/
def handle_defined (tbl : String → Option (List Tok)) (ts : List Tok) : DefinedRes :=
  match lexNS ts with
  | some (.punct '(', ts1) =>
    (match lexNS ts1 with
     | some (.ident x, ts2) =>
       (match lexNS ts2 with
        | some (.punct ')', ts3) => .dok (if (tbl x).isSome then 1 else 0) ts3
        | some (_, ts3) => .derr unmatched_paren_msg ts3
        | none => .derr unmatched_paren_msg [])
     | some (_, ts2) => .derr defined_requires_msg ts2
     | none => .derr defined_requires_msg [])
  | some (.ident x, ts1) => .dok (if (tbl x).isSome then 1 else 0) ts1
  | some (_, ts1) => .derr defined_requires_msg ts1
  | none => .derr defined_requires_msg []

/-- A conditional's directive kind (the `type` field of `Conditional`). -/
inductive CondTy where
  | tIf
  | tIfdef
  | tIfndef
  | tElse
  | tElif
deriving DecidableEq, Repr

/-- A `Conditional` record: kind, `chosen`, `skipping` (line numbers are
not modelled). -/
structure Cond where
  ty : CondTy
  chosen : Bool
  skipping : Bool
deriving DecidableEq, Repr

/-- An `IncludeState` frame: the tokens still to lex and the per-frame
conditional stack (innermost first). -/
structure Frame where
  toks : List Tok
  conds : List Cond
deriving DecidableEq, Repr

/-- The parts of `Context` the iterator claims exercise: the include
stack, the macro table as a lookup from identifier to the token list its
definition lexes to (object-like macros; `none` for undefined names), the
recursion counter, the staged failure, and three instrumentation counters
recording how many conditionals were pushed (`ifs`), popped by a
successful `#endif` (`endifs`), and popped by an unterminated-conditional
report (`reports`). -/
structure PPState where
  stack : List Frame
  table : String → Option (List Tok)
  recursion_count : Nat
  isfail : Bool
  failstr : String
  ifs : Nat
  endifs : Nat
  reports : Nat

/-- `fail(ctx, msg)`: stage a failure message. -/
def PPState.fail (st : PPState) (msg : String) : PPState :=
  { st with isfail := true, failstr := msg }

/-- Total number of open conditionals across all frames. -/
def condCount (stk : List Frame) : Nat :=
  (stk.map (fun f => f.conds.length)).sum

/-- Replace the token list of the innermost frame. -/
def setTopToks (st : PPState) (ts : List Tok) : PPState :=
  match st.stack with
  | [] => st
  | fr :: frs => { st with stack := ⟨ts, fr.conds⟩ :: frs }

/-- `handle_pp_identifier` (lines 1618-1642) for object-like macros: a
post-incremented recursion counter at 256 or beyond stages "Recursing
macros" and passes the identifier through; an unknown identifier passes
through; a known object-like macro pushes its definition as a new
synthetic frame.  The Bool is the C return value (1 when a frame was
pushed). -/
def handle_pp_identifier (st : PPState) (s : String) : Bool × PPState :=
  if 256 ≤ st.recursion_count then
    (false, { (st.fail "Recursing macros") with recursion_count := st.recursion_count + 1 })
  else
    let st1 : PPState := { st with recursion_count := st.recursion_count + 1 }
    match st1.table s with
    | none => (false, st1)
    | some body => (true, { st1 with stack := ⟨body, []⟩ :: st1.stack })

/-- Pop operators to the output while the shunting-yard rule holds
(line 1882-1897: left-associative pops at equal precedence, the unary
operators only above it; a `(` on the stack has precedence -1 and stops
the loop). -/
def pop_ops (prec : Int) (isleft : Bool) : List Tok → List RpnTok → List Tok × List RpnTok
  | [], out => ([], out)
  | t :: ts, out =>
    let p := find_precedence t
    if 0 ≤ p ∧ ((isleft ∧ prec ≤ p) ∨ (¬isleft ∧ prec < p)) then
      pop_ops prec isleft ts (out ++ [RpnTok.op t])
    else (t :: ts, out)

/-- On `)` pop operators to the output until the matching `(`
(lines 1850-1868); `none` when there is none. -/
def pop_until_paren : List Tok → List RpnTok → Option (List Tok × List RpnTok)
  | [], _ => none
  | t :: ts, out =>
    if t = Tok.punct '(' then some (ts, out)
    else pop_until_paren ts (out ++ [RpnTok.op t])

/-- Drain the operator stack at the end of the expression
(lines 1905-1914); `none` when an unmatched `(` remains. -/
def drain_stack : List Tok → List RpnTok → Option (List RpnTok)
  | [], out => some out
  | t :: ts, out =>
    if t = Tok.punct '(' then none
    else drain_stack ts (out ++ [RpnTok.op t])

/-- The lexing step shared by the iterator loops: after lexing, the
recursion counter is cleared unless the token is an identifier
(lines 1796-1797 and 2104-2105). -/
def lex_reset (st : PPState) (t : Tok) : PPState :=
  if t.isIdent then st else { st with recursion_count := 0 }

/-- The while-loop of `reduce_pp_expression` (lines 1776-1903), fuelled.
Reads tokens from the innermost frame of `st` (macro expansion pushes new
frames and reading continues from them; end of the innermost frame ends
the expression).  Returns `none` when fuel runs out, otherwise the final
state together with `some output` on success or `none` after a staged
parse error (the C `return -1`). -/
def topToks (st : PPState) : List Tok :=
  match st.stack with
  | [] => []
  | fr :: _ => fr.toks

def reduce_loop : Nat → PPState → List RpnTok → List Tok → Tok →
    Option (Option (List RpnTok) × PPState)
  | 0, _, _, _, _ => none
  | f + 1, st, out, opstack, prev =>
    match st.stack with
    | [] =>
      -- unreachable from the iterator (it always has a frame); end the expression
      (match drain_stack opstack out with
       | none => some (none, st.fail unmatched_paren_msg)
       | some out' => some (some out', st))
    | fr :: frs =>
      match lexNS fr.toks with
      | none =>
        -- TOKEN_EOI of the innermost frame ends the expression (no pop here)
        (match drain_stack opstack out with
         | none => some (none, (({ st with
             stack := ⟨[], fr.conds⟩ :: frs
             recursion_count := 0 } : PPState)).fail unmatched_paren_msg)
         | some out' => some (some out', ({ st with
             stack := ⟨[], fr.conds⟩ :: frs
             recursion_count := 0 } : PPState)))
      | some (t0, ts) =>
        match classify t0 prev with
        | (t1, isleft) =>
          match t1 with
          | .newline =>
            (match drain_stack opstack out with
             | none => some (none, (lex_reset ({ st with
                 stack := ⟨ts, fr.conds⟩ :: frs } : PPState) t1).fail unmatched_paren_msg)
             | some out' => some (some out', lex_reset ({ st with
                 stack := ⟨ts, fr.conds⟩ :: frs } : PPState) t1))
          | .ident s =>
            (match handle_pp_identifier (lex_reset ({ st with
                stack := ⟨ts, fr.conds⟩ :: frs } : PPState) t1) s with
             | (true, st3) => reduce_loop f st3 out opstack prev
             | (false, st3) =>
               if s = "defined" then
                 match handle_defined st3.table (topToks st3) with
                 | .derr msg rest => some (none, (setTopToks st3 rest).fail msg)
                 | .dok v rest =>
                   reduce_loop f (setTopToks st3 rest) (out ++ [RpnTok.num v]) opstack prev
               else
                 -- an identifier that is not a macro becomes the integer literal 0
                 reduce_loop f st3 (out ++ [RpnTok.num 0]) opstack (Tok.intlit 0))
          | .intlit n =>
            reduce_loop f (lex_reset ({ st with stack := ⟨ts, fr.conds⟩ :: frs } : PPState) t1)
              (out ++ [RpnTok.num (n : Int)]) opstack (Tok.intlit n)
          | .punct c0 =>
            if c0 = '(' then
              reduce_loop f (lex_reset ({ st with stack := ⟨ts, fr.conds⟩ :: frs } : PPState) t1)
                out (Tok.punct '(' :: opstack) (Tok.punct '(')
            else if c0 = ')' then
              (match pop_until_paren opstack out with
               | none => some (none, (lex_reset ({ st with
                   stack := ⟨ts, fr.conds⟩ :: frs } : PPState) t1).fail unmatched_paren_msg)
               | some (opstack', out') =>
                 reduce_loop f (lex_reset ({ st with stack := ⟨ts, fr.conds⟩ :: frs } : PPState) t1)
                   out' opstack' (Tok.punct ')'))
            else
              if find_precedence (Tok.punct c0) < 0 then
                some (none, (setTopToks (lex_reset ({ st with
                  stack := ⟨ts, fr.conds⟩ :: frs } : PPState) t1) (t0 :: ts)).fail
                  "Invalid expression")
              else
                reduce_loop f (lex_reset ({ st with stack := ⟨ts, fr.conds⟩ :: frs } : PPState) t1)
                  (pop_ops (find_precedence (Tok.punct c0)) isleft opstack out).2
                  (Tok.punct c0 :: (pop_ops (find_precedence (Tok.punct c0)) isleft opstack out).1)
                  (Tok.punct c0)
          | t =>
            if find_precedence t < 0 then
              some (none, (setTopToks (lex_reset ({ st with
                stack := ⟨ts, fr.conds⟩ :: frs } : PPState) t1) (t0 :: ts)).fail
                "Invalid expression")
            else
              reduce_loop f (lex_reset ({ st with stack := ⟨ts, fr.conds⟩ :: frs } : PPState) t1)
                (pop_ops (find_precedence t) isleft opstack out).2
                (t :: (pop_ops (find_precedence t) isleft opstack out).1) t

/-- `reduce_pp_expression`: run the shunting-yard loop, then interpret the
reverse-polish output; -1 for an error, otherwise 1 or 0 for a non-zero or
zero value (`none` only on fuel exhaustion). -/
def reduce_pp_expression (f : Nat) (st : PPState) : Option (Int × PPState) :=
  (reduce_loop f st [] [] Tok.unknown).map fun r =>
    match r with
    | (none, st') => (-1, st')
    | (some out, st') =>
      match interpret_rpn out [] with
      | none => (-1, st'.fail "Invalid expression")
      | some v => ((if v ≠ 0 then 1 else 0 : Int), st')

/-- The raw constant value of a `#if`/`#elif` expression: the
`interpret_rpn` result before `reduce_pp_expression` collapses it to
the 1, 0 or -1 code (`some none` when parsing or interpretation failed). -/
def pp_if_value (f : Nat) (st : PPState) : Option (Option Int) :=
  (reduce_loop f st [] [] Tok.unknown).map fun r =>
    match r with
    | (none, _) => none
    | (some out, _) => interpret_rpn out []

/-- The capture loop of `handle_pp_error` (lines 972-1001), with the lexer
reporting whitespace: stop (with pushback) at a newline or at end of
input; a whitespace token appends one space if room remains (`avail`);
any other token appends its lexeme truncated to the room remaining.
Returns the captured characters and the tokens left. -/
def pp_error_loop : List Tok → Nat → List Char → List Char × List Tok
  | [], _, acc => (acc, [])
  | .newline :: ts, _, acc => (acc, Tok.newline :: ts)
  | .space :: ts, avail, acc =>
    if avail = 0 then pp_error_loop ts avail acc
    else pp_error_loop ts (avail - 1) (acc ++ [' '])
  | t :: ts, avail, acc =>
    let lx := t.lexeme.data
    let cpy := min avail lx.length
    pp_error_loop ts (avail - cpy) (acc ++ lx.take cpy)

/-- `handle_pp_error`: `failstr` starts with the `"#error"` prefix
(6 bytes of the 255 available), the capture loop appends the rest of the
line, and the failure is staged. -/
def handle_pp_error (st : PPState) : PPState :=
  match st.stack with
  | [] => st
  | fr :: frs =>
    let r := pp_error_loop fr.toks 249 []
    { st with
      stack := ⟨r.2, fr.conds⟩ :: frs
      isfail := true
      failstr := "#error" ++ String.mk r.1 }

/-- Push a `Conditional` onto the frame `i` levels below the innermost
one, computing `skipping` from that frame's current top conditional
(the parent): `skipping = (parent && parent->skipping) || !chosen`. -/
def addCondAtIdx : List Frame → Nat → CondTy → Bool → List Frame
  | [], _, _, _ => []
  | fr :: frs, 0, ty, chosen =>
    let parentskip := match fr.conds with | [] => false | c :: _ => c.skipping
    ⟨fr.toks, ⟨ty, chosen, parentskip || !chosen⟩ :: fr.conds⟩ :: frs
  | fr :: frs, i + 1, ty, chosen => fr :: addCondAtIdx frs i ty chosen

/-- `_handle_pp_ifdef` (lines 1266-1308): the next token must be an
identifier, the line must end, and then a conditional is pushed whose
`chosen` is the (possibly negated) result of `find_define`. -/
def handle_pp_ifdef (st : PPState) (isdef : Bool) : PPState :=
  match st.stack with
  | [] => st
  | fr :: frs =>
    match lexNS fr.toks with
    | some (.ident sym, ts) =>
      let r := require_newline ts
      if r.1 then
        let found := (st.table sym).isSome
        let chosen := if isdef then found else !found
        let st1 : PPState := { st with stack := ⟨r.2, fr.conds⟩ :: frs }
        { st1 with
          stack := addCondAtIdx st1.stack 0 (if isdef then CondTy.tIfdef else CondTy.tIfndef) chosen,
          ifs := st1.ifs + 1 }
      else
        ({ st with stack := ⟨r.2, fr.conds⟩ :: frs } : PPState).fail
          (if isdef then "Invalid #ifdef directive" else "Invalid #ifndef directive")
    | some (_, ts) =>
      ({ st with stack := ⟨ts, fr.conds⟩ :: frs } : PPState).fail
        "Macro names must be indentifiers"
    | none =>
      ({ st with stack := ⟨[], fr.conds⟩ :: frs } : PPState).fail
        "Macro names must be indentifiers"

/-- `handle_pp_if` (lines 1965-1988): evaluate the expression; on error do
nothing more; otherwise push a conditional onto the frame that was
innermost when the directive was seen (the evaluation may have left
synthetic expansion frames above it; the C code keeps a pointer to it). -/
def handle_pp_if (f : Nat) (st : PPState) : Option PPState :=
  let d := st.stack.length
  (reduce_pp_expression f st).map fun r =>
    if r.1 = -1 then r.2
    else
      { r.2 with
        stack := addCondAtIdx r.2.stack (r.2.stack.length - d) CondTy.tIf (r.1 != 0),
        ifs := r.2.ifs + 1 }

/-- `handle_pp_elif` (lines 1991-2011): evaluate, then inspect the
conditional stack of the now-innermost frame; `#elif` without an open
conditional or after `#else` fails; otherwise the top conditional becomes
an `ELIF` with the usual skipping rule, and `chosen` absorbs the result. -/
def handle_pp_elif (f : Nat) (st : PPState) : Option PPState :=
  (reduce_pp_expression f st).map fun r =>
    if r.1 = -1 then r.2
    else
      match r.2.stack with
      | [] => r.2
      | fr :: frs =>
        match fr.conds with
        | [] => r.2.fail "#elif without #if"
        | c :: cs =>
          if c.ty = CondTy.tElse then r.2.fail "#elif after #else"
          else
            let parentskip := match cs with | [] => false | pc :: _ => pc.skipping
            { r.2 with stack :=
                ⟨fr.toks, ⟨CondTy.tElif, c.chosen || (r.1 != 0),
                           parentskip || c.chosen || (r.1 == 0)⟩ :: cs⟩ :: frs }

/-- `handle_pp_else` (lines 2014-2033). -/
def handle_pp_else (st : PPState) : PPState :=
  match st.stack with
  | [] => st
  | fr :: frs =>
    let r := require_newline fr.toks
    let st1 : PPState := { st with stack := ⟨r.2, fr.conds⟩ :: frs }
    if !r.1 then st1.fail "Invalid #else directive"
    else
      match fr.conds with
      | [] => st1.fail "#else without #if"
      | c :: cs =>
        if c.ty = CondTy.tElse then st1.fail "#else after #else"
        else
          let parentskip := match cs with | [] => false | pc :: _ => pc.skipping
          { st1 with stack := ⟨r.2, ⟨CondTy.tElse, true, parentskip || c.chosen⟩ :: cs⟩ :: frs }

/-- `handle_pp_endif` (lines 2036-2050): requires an end of line, fails on
an empty conditional stack, otherwise pops one conditional. -/
def handle_pp_endif (st : PPState) : PPState :=
  match st.stack with
  | [] => st
  | fr :: frs =>
    let r := require_newline fr.toks
    let st1 : PPState := { st with stack := ⟨r.2, fr.conds⟩ :: frs }
    if !r.1 then st1.fail "Invalid #endif directive"
    else
      match fr.conds with
      | [] => st1.fail "Unmatched #endif"
      | _ :: cs => { st1 with stack := ⟨r.2, cs⟩ :: frs, endifs := st.endifs + 1 }

/-- `unterminated_pp_condition` (lines 2053-2073): report the innermost
open conditional of the innermost frame and pop it. -/
def unterminated_pp_condition (st : PPState) : PPState :=
  match st.stack with
  | [] => st
  | fr :: frs =>
    match fr.conds with
    | [] => st
    | c :: cs =>
      let msg := match c.ty with
        | .tIf => "Unterminated #if"
        | .tIfdef => "Unterminated #ifdef"
        | .tIfndef => "Unterminated #ifndef"
        | .tElse => "Unterminated #else"
        | .tElif => "Unterminated #elif"
      { (st.fail msg) with stack := ⟨fr.toks, cs⟩ :: frs, reports := st.reports + 1 }

/-- What one `preprocessor_nexttoken` call yields: an ordinary token, a
preprocessing-error token, or end of input. -/
inductive OutTok where
  | tok (t : Tok)
  | error (s : String)
  | eoi
deriving DecidableEq, Repr

/-- `_preprocessor_nexttoken` (lines 2076-2229), fuelled (each `continue`
of the C while-loop consumes one unit; `none` on exhaustion).  A staged
failure is returned first; an empty include stack is end of input; a
frame's end of input reports unterminated conditionals one at a time and
then pops the frame; conditional directives are handled even while
skipping; everything else is discarded while skipping; `#error` stages
its message; identifiers may push an expansion frame; newlines are
swallowed; any other token is returned. -/
def nexttoken : Nat → PPState → Option (OutTok × PPState)
  | 0, _ => none
  | f + 1, st =>
    if st.isfail then some (.error st.failstr, { st with isfail := false })
    else
      match st.stack with
      | [] => some (.eoi, st)
      | fr :: frs =>
        match lexNS fr.toks with
        | none =>
          (match fr.conds with
           | _ :: _ =>
             nexttoken f (unterminated_pp_condition { st with stack := ⟨[], fr.conds⟩ :: frs })
           | [] => nexttoken f { st with stack := frs })
        | some (t, ts) =>
          match t with
          | .ppIfdef =>
            nexttoken f (handle_pp_ifdef
              (lex_reset ({ st with stack := ⟨ts, fr.conds⟩ :: frs } : PPState) Tok.ppIfdef) true)
          | .ppIfndef =>
            nexttoken f (handle_pp_ifdef
              (lex_reset ({ st with stack := ⟨ts, fr.conds⟩ :: frs } : PPState) Tok.ppIfndef) false)
          | .ppIf =>
            (handle_pp_if f
              (lex_reset ({ st with stack := ⟨ts, fr.conds⟩ :: frs } : PPState) Tok.ppIf)).bind
              (nexttoken f)
          | .ppElif =>
            (handle_pp_elif f
              (lex_reset ({ st with stack := ⟨ts, fr.conds⟩ :: frs } : PPState) Tok.ppElif)).bind
              (nexttoken f)
          | .ppEndif =>
            nexttoken f (handle_pp_endif
              (lex_reset ({ st with stack := ⟨ts, fr.conds⟩ :: frs } : PPState) Tok.ppEndif))
          | .ppElse =>
            nexttoken f (handle_pp_else
              (lex_reset ({ st with stack := ⟨ts, fr.conds⟩ :: frs } : PPState) Tok.ppElse))
          | _ =>
            if (match fr.conds with | [] => false | c :: _ => c.skipping) then
              nexttoken f (lex_reset ({ st with stack := ⟨ts, fr.conds⟩ :: frs } : PPState) t)
            else
              match t with
              | .ppError =>
                nexttoken f (handle_pp_error
                  (lex_reset ({ st with stack := ⟨ts, fr.conds⟩ :: frs } : PPState) Tok.ppError))
              | .ident s =>
                (match handle_pp_identifier
                    (lex_reset ({ st with stack := ⟨ts, fr.conds⟩ :: frs } : PPState)
                      (Tok.ident s)) s with
                 | (true, st3) => nexttoken f st3
                 | (false, st3) => some (.tok (Tok.ident s), st3))
              | .newline =>
                nexttoken f (lex_reset ({ st with stack := ⟨ts, fr.conds⟩ :: frs } : PPState)
                  Tok.newline)
              | t =>
                some (.tok t, lex_reset ({ st with stack := ⟨ts, fr.conds⟩ :: frs } : PPState) t)

/-- Iterate `nexttoken`, collecting the emitted tokens up to and including
end of input. -/
def runTokens : Nat → PPState → List OutTok
  | 0, _ => []
  | f + 1, st =>
    match nexttoken (f + 1) st with
    | none => []
    | some (.eoi, _) => [OutTok.eoi]
    | some (o, st') => o :: runTokens f st'

/-- Iterate `nexttoken` until end of input and return the final state. -/
def runToEnd : Nat → PPState → Option PPState
  | 0, _ => none
  | f + 1, st =>
    match nexttoken (f + 1) st with
    | none => none
    | some (.eoi, st') => some st'
    | some (_, st') => runToEnd f st'

/-- The conditional-balance counters after a complete run: conditionals
popped by `#endif`, unterminated reports, conditionals pushed. -/
def runCounters (f : Nat) (st : PPState) : Option (Nat × Nat × Nat) :=
  (runToEnd f st).map fun s => (s.endifs, s.reports, s.ifs)

/-- An initial machine state over one source frame: empty conditional
stacks, zeroed counters, no staged failure. -/
def initState (toks : List Tok) (tbl : String → Option (List Tok)) : PPState :=
  { stack := [⟨toks, []⟩], table := tbl, recursion_count := 0,
    isfail := false, failstr := "", ifs := 0, endifs := 0, reports := 0 }

/-- A macro lookup with no definitions at all. -/
def emptyMacroLookup : String → Option (List Tok) := fun _ => none

/-- A macro lookup where exactly `X` is defined (as the object-like body `1`). -/
def xOnlyLookup : String → Option (List Tok) :=
  fun s => if s = "X" then some [Tok.intlit 1] else none

/-- C4: in the `#if`/`#elif` evaluator a `+` or `-` token is the binary
left-associative operator exactly when the previous token was an integer
literal and the unary operator otherwise; consequently `#if 1 - -1`
evaluates to 2 (result code 1), `#if -1 < 0` evaluates to 1, and
`#if 1 + +1` evaluates to 2. -/
theorem C4_unary_binary_plus_minus :
    (∀ prev : Tok, classify (Tok.punct '-') prev =
      if prev.isIntLit then (Tok.punct '-', true) else (Tok.unaryMinus, false)) ∧
    (∀ prev : Tok, classify (Tok.punct '+') prev =
      if prev.isIntLit then (Tok.punct '+', true) else (Tok.unaryPlus, false)) ∧
    pp_if_value 50 (initState [Tok.intlit 1, Tok.punct '-', Tok.punct '-',
      Tok.intlit 1, Tok.newline] emptyMacroLookup) = some (some 2) ∧
    (reduce_pp_expression 50 (initState [Tok.intlit 1, Tok.punct '-', Tok.punct '-',
      Tok.intlit 1, Tok.newline] emptyMacroLookup)).map Prod.fst = some 1 ∧
    pp_if_value 50 (initState [Tok.punct '-', Tok.intlit 1, Tok.punct '<',
      Tok.intlit 0, Tok.newline] emptyMacroLookup) = some (some 1) ∧
    pp_if_value 50 (initState [Tok.intlit 1, Tok.punct '+', Tok.punct '+',
      Tok.intlit 1, Tok.newline] emptyMacroLookup) = some (some 2) := by
  refine ⟨?_, ?_, ?_, ?_, ?_, ?_⟩
  · intro prev; rfl
  · intro prev; rfl
  · decide
  · decide
  · decide
  · decide

/-- C5: inside a `#if`/`#elif` expression, `defined X` and `defined(X)`
produce the same operand: 1 exactly when `X` is currently a macro, 0
otherwise; `defined` not followed by an identifier (a nested parenthesis
included) raises "operator 'defined' requires an identifier" and the
whole evaluation returns the error code -1. -/
theorem C5_defined_operator :
    (∀ (tbl : String → Option (List Tok)) (x : String) (rest : List Tok),
      handle_defined tbl (Tok.ident x :: rest) =
        DefinedRes.dok (if (tbl x).isSome then 1 else 0) rest) ∧
    (∀ (tbl : String → Option (List Tok)) (x : String) (rest : List Tok),
      handle_defined tbl (Tok.punct '(' :: Tok.ident x :: Tok.punct ')' :: rest) =
        DefinedRes.dok (if (tbl x).isSome then 1 else 0) rest) ∧
    (∀ (tbl : String → Option (List Tok)) (rest : List Tok),
      handle_defined tbl (Tok.punct '(' :: Tok.punct '(' :: rest) =
        DefinedRes.derr defined_requires_msg rest) ∧
    (∀ (tbl : String → Option (List Tok)) (rest : List Tok),
      handle_defined tbl (Tok.newline :: rest) =
        DefinedRes.derr defined_requires_msg rest) ∧
    (∀ tbl : String → Option (List Tok),
      handle_defined tbl [] = DefinedRes.derr defined_requires_msg []) ∧
    (reduce_pp_expression 50 (initState [Tok.ident "defined", Tok.ident "X",
      Tok.newline] xOnlyLookup)).map Prod.fst = some 1 ∧
    (reduce_pp_expression 50 (initState [Tok.ident "defined", Tok.punct '(',
      Tok.ident "X", Tok.punct ')', Tok.newline] xOnlyLookup)).map Prod.fst = some 1 ∧
    (reduce_pp_expression 50 (initState [Tok.ident "defined", Tok.ident "Y",
      Tok.newline] xOnlyLookup)).map Prod.fst = some 0 ∧
    (reduce_pp_expression 50 (initState [Tok.ident "defined", Tok.punct '(',
      Tok.ident "Y", Tok.punct ')', Tok.newline] xOnlyLookup)).map Prod.fst = some 0 ∧
    (reduce_pp_expression 50 (initState [Tok.ident "defined",
      Tok.newline] xOnlyLookup)).map Prod.fst = some (-1) ∧
    (reduce_pp_expression 80 (initState [Tok.ident "defined", Tok.punct '(',
      Tok.punct '(', Tok.ident "X", Tok.punct ')', Tok.punct ')',
      Tok.newline] xOnlyLookup)).map Prod.fst = some (-1) := by
  refine ⟨?_, ?_, ?_, ?_, ?_, ?_, ?_, ?_, ?_, ?_, ?_⟩
  · intro tbl x rest; rfl
  · intro tbl x rest; rfl
  · intro tbl rest; rfl
  · intro tbl rest; rfl
  · intro tbl; rfl
  · decide
  · decide
  · decide
  · decide
  · decide
  · decide

/-- A macro lookup with the single self-referential object-like macro
`#define A A`. -/
def selfRefLookup : String → Option (List Tok) :=
  fun s => if s = "A" then some [Tok.ident "A"] else none

/-- C3: macro expansion recursion is bounded.  (1) When the recursion
counter has reached 256, `handle_pp_identifier` stages "Recursing macros"
and does not expand (the include stack is untouched and the C return
value is 0, so the identifier passes through).  (2) The iterator resets
the counter to zero whenever it lexes a non-identifier token (shown here
on a passthrough token).  (3) The self-referential chain `#define A A`
terminates: the iteration emits the identifier once, then the "Recursing
macros" error, then end of input. -/
theorem C3_recursion_capped :
    (∀ (st : PPState) (s : String), 256 ≤ st.recursion_count →
      (handle_pp_identifier st s).1 = false ∧
      (handle_pp_identifier st s).2.stack = st.stack ∧
      (handle_pp_identifier st s).2.isfail = true ∧
      (handle_pp_identifier st s).2.failstr = "Recursing macros" ∧
      (handle_pp_identifier st s).2.recursion_count = st.recursion_count + 1) ∧
    (∀ (f : Nat) (tbl : String → Option (List Tok)) (n rc i1 i2 i3 : Nat)
        (ts : List Tok) (frs : List Frame) (fstr : String),
      nexttoken (f + 1)
        { stack := ⟨Tok.intlit n :: ts, []⟩ :: frs, table := tbl,
          recursion_count := rc, isfail := false, failstr := fstr,
          ifs := i1, endifs := i2, reports := i3 } =
      some (OutTok.tok (Tok.intlit n),
        { stack := ⟨ts, []⟩ :: frs, table := tbl,
          recursion_count := 0, isfail := false, failstr := fstr,
          ifs := i1, endifs := i2, reports := i3 })) ∧
    runTokens 600 (initState [Tok.ident "A", Tok.newline] selfRefLookup) =
      [OutTok.tok (Tok.ident "A"), OutTok.error "Recursing macros", OutTok.eoi] := by
  refine ⟨?_, ?_, ?_⟩
  · intro st s h
    unfold handle_pp_identifier
    rw [if_pos h]
    exact ⟨rfl, rfl, rfl, rfl, rfl⟩
  · intro f tbl n rc i1 i2 i3 ts frs fstr
    rfl
  · decide

/-- Witness for C3 at a state whose counter sits at the cap and at the
concrete passthrough state. -/
theorem C3_witness :
    (256 ≤ (initState [] selfRefLookup).recursion_count + 256 ∧
      (handle_pp_identifier
        { initState [] selfRefLookup with recursion_count := 256 } "A").1 = false ∧
      (handle_pp_identifier
        { initState [] selfRefLookup with recursion_count := 256 } "A").2.failstr =
        "Recursing macros") ∧
    nexttoken 1
      { stack := ⟨[Tok.intlit 7], []⟩ :: [], table := emptyMacroLookup,
        recursion_count := 9, isfail := false, failstr := "",
        ifs := 0, endifs := 0, reports := 0 } =
    some (OutTok.tok (Tok.intlit 7),
      { stack := ⟨[], []⟩ :: [], table := emptyMacroLookup,
        recursion_count := 0, isfail := false, failstr := "",
        ifs := 0, endifs := 0, reports := 0 }) :=
  ⟨⟨by omega,
    (C3_recursion_capped.1 { initState [] selfRefLookup with recursion_count := 256 } "A"
      (by decide)).1,
    (C3_recursion_capped.1 { initState [] selfRefLookup with recursion_count := 256 } "A"
      (by decide)).2.2.2.1⟩,
   C3_recursion_capped.2.1 0 emptyMacroLookup 7 9 0 0 0 [] [] ""⟩

/-- The untruncated text `handle_pp_error`'s loop would capture from a
token sequence: each token contributes its lexeme, a whitespace run
contributing one space. -/
def line_capture : List Tok → List Char
  | [] => []
  | t :: ts => t.lexeme.data ++ line_capture ts

/-- Splicing a truncated chunk: appending a lexeme truncated to the room
remaining and then the rest truncated to what is left equals truncating
the whole concatenation. -/
theorem take_chunk (lx cap acc : List Char) (avail : Nat) :
    (acc ++ lx.take (min avail lx.length)) ++ cap.take (avail - min avail lx.length)
      = acc ++ (lx ++ cap).take avail := by
  rw [List.append_assoc]
  congr 1
  rw [List.take_append_eq_append_take]
  rcases Nat.le_total avail lx.length with hle | hle
  · rw [Nat.min_eq_left hle, Nat.sub_self, Nat.sub_eq_zero_of_le hle]
  · rw [Nat.min_eq_right hle]
    rw [List.take_of_length_le hle, List.take_of_length_le (le_refl _)]

/-- The capture loop on a line followed by a newline: it stops at the
newline (pushing it back) and the captured text is the line's capture
truncated to the room available. -/
theorem pp_error_loop_spec (pre : List Tok) :
    ∀ (rest : List Tok) (avail : Nat) (acc : List Char), Tok.newline ∉ pre →
    pp_error_loop (pre ++ Tok.newline :: rest) avail acc
      = (acc ++ (line_capture pre).take avail, Tok.newline :: rest) := by
  induction pre with
  | nil => intro rest avail acc _; simp [pp_error_loop, line_capture]
  | cons t pre ih =>
    intro rest avail acc hnl
    have hnl' : Tok.newline ∉ pre := fun hx => hnl (List.mem_cons_of_mem _ hx)
    have hne : t ≠ Tok.newline := fun hx => hnl (hx ▸ List.mem_cons_self _ _)
    cases t with
    | newline => exact absurd rfl hne
    | space =>
      rcases Nat.eq_zero_or_pos avail with hz | hp
      · subst hz
        simp only [List.cons_append, pp_error_loop, List.append_eq]
        rw [if_pos trivial]
        rw [ih rest 0 acc hnl']
        simp [line_capture, Tok.lexeme]
      · obtain ⟨k, rfl⟩ : ∃ k, avail = k + 1 := ⟨avail - 1, by omega⟩
        simp only [List.cons_append, pp_error_loop, List.append_eq]
        rw [if_neg (by omega)]
        simp only [Nat.add_sub_cancel]
        rw [ih rest k (acc ++ [' ']) hnl']
        simp [line_capture, Tok.lexeme, List.append_assoc]
    | ident s =>
      simp only [List.cons_append, pp_error_loop, List.append_eq]
      rw [ih rest _ _ hnl']
      rw [show line_capture (Tok.ident s :: pre)
            = (Tok.ident s).lexeme.data ++ line_capture pre from rfl]
      rw [take_chunk]
    | intlit n =>
      simp only [List.cons_append, pp_error_loop, List.append_eq]
      rw [ih rest _ _ hnl']
      rw [show line_capture (Tok.intlit n :: pre)
            = (Tok.intlit n).lexeme.data ++ line_capture pre from rfl]
      rw [take_chunk]
    | punct c =>
      simp only [List.cons_append, pp_error_loop, List.append_eq]
      rw [ih rest _ _ hnl']
      rw [show line_capture (Tok.punct c :: pre)
            = (Tok.punct c).lexeme.data ++ line_capture pre from rfl]
      rw [take_chunk]
    | unknown =>
      simp only [List.cons_append, pp_error_loop, List.append_eq]
      rw [ih rest _ _ hnl']
      rw [show line_capture (Tok.unknown :: pre)
            = (Tok.unknown).lexeme.data ++ line_capture pre from rfl]
      rw [take_chunk]
    | oror =>
      simp only [List.cons_append, pp_error_loop, List.append_eq]
      rw [ih rest _ _ hnl']
      rw [show line_capture (Tok.oror :: pre)
            = (Tok.oror).lexeme.data ++ line_capture pre from rfl]
      rw [take_chunk]
    | andand =>
      simp only [List.cons_append, pp_error_loop, List.append_eq]
      rw [ih rest _ _ hnl']
      rw [show line_capture (Tok.andand :: pre)
            = (Tok.andand).lexeme.data ++ line_capture pre from rfl]
      rw [take_chunk]
    | neq =>
      simp only [List.cons_append, pp_error_loop, List.append_eq]
      rw [ih rest _ _ hnl']
      rw [show line_capture (Tok.neq :: pre)
            = (Tok.neq).lexeme.data ++ line_capture pre from rfl]
      rw [take_chunk]
    | eql =>
      simp only [List.cons_append, pp_error_loop, List.append_eq]
      rw [ih rest _ _ hnl']
      rw [show line_capture (Tok.eql :: pre)
            = (Tok.eql).lexeme.data ++ line_capture pre from rfl]
      rw [take_chunk]
    | leq =>
      simp only [List.cons_append, pp_error_loop, List.append_eq]
      rw [ih rest _ _ hnl']
      rw [show line_capture (Tok.leq :: pre)
            = (Tok.leq).lexeme.data ++ line_capture pre from rfl]
      rw [take_chunk]
    | geq =>
      simp only [List.cons_append, pp_error_loop, List.append_eq]
      rw [ih rest _ _ hnl']
      rw [show line_capture (Tok.geq :: pre)
            = (Tok.geq).lexeme.data ++ line_capture pre from rfl]
      rw [take_chunk]
    | lshift =>
      simp only [List.cons_append, pp_error_loop, List.append_eq]
      rw [ih rest _ _ hnl']
      rw [show line_capture (Tok.lshift :: pre)
            = (Tok.lshift).lexeme.data ++ line_capture pre from rfl]
      rw [take_chunk]
    | rshift =>
      simp only [List.cons_append, pp_error_loop, List.append_eq]
      rw [ih rest _ _ hnl']
      rw [show line_capture (Tok.rshift :: pre)
            = (Tok.rshift).lexeme.data ++ line_capture pre from rfl]
      rw [take_chunk]
    | hashhash =>
      simp only [List.cons_append, pp_error_loop, List.append_eq]
      rw [ih rest _ _ hnl']
      rw [show line_capture (Tok.hashhash :: pre)
            = (Tok.hashhash).lexeme.data ++ line_capture pre from rfl]
      rw [take_chunk]
    | hash =>
      simp only [List.cons_append, pp_error_loop, List.append_eq]
      rw [ih rest _ _ hnl']
      rw [show line_capture (Tok.hash :: pre)
            = (Tok.hash).lexeme.data ++ line_capture pre from rfl]
      rw [take_chunk]
    | unaryPlus =>
      simp only [List.cons_append, pp_error_loop, List.append_eq]
      rw [ih rest _ _ hnl']
      rw [show line_capture (Tok.unaryPlus :: pre)
            = (Tok.unaryPlus).lexeme.data ++ line_capture pre from rfl]
      rw [take_chunk]
    | unaryMinus =>
      simp only [List.cons_append, pp_error_loop, List.append_eq]
      rw [ih rest _ _ hnl']
      rw [show line_capture (Tok.unaryMinus :: pre)
            = (Tok.unaryMinus).lexeme.data ++ line_capture pre from rfl]
      rw [take_chunk]
    | ppIf =>
      simp only [List.cons_append, pp_error_loop, List.append_eq]
      rw [ih rest _ _ hnl']
      rw [show line_capture (Tok.ppIf :: pre)
            = (Tok.ppIf).lexeme.data ++ line_capture pre from rfl]
      rw [take_chunk]
    | ppIfdef =>
      simp only [List.cons_append, pp_error_loop, List.append_eq]
      rw [ih rest _ _ hnl']
      rw [show line_capture (Tok.ppIfdef :: pre)
            = (Tok.ppIfdef).lexeme.data ++ line_capture pre from rfl]
      rw [take_chunk]
    | ppIfndef =>
      simp only [List.cons_append, pp_error_loop, List.append_eq]
      rw [ih rest _ _ hnl']
      rw [show line_capture (Tok.ppIfndef :: pre)
            = (Tok.ppIfndef).lexeme.data ++ line_capture pre from rfl]
      rw [take_chunk]
    | ppElse =>
      simp only [List.cons_append, pp_error_loop, List.append_eq]
      rw [ih rest _ _ hnl']
      rw [show line_capture (Tok.ppElse :: pre)
            = (Tok.ppElse).lexeme.data ++ line_capture pre from rfl]
      rw [take_chunk]
    | ppElif =>
      simp only [List.cons_append, pp_error_loop, List.append_eq]
      rw [ih rest _ _ hnl']
      rw [show line_capture (Tok.ppElif :: pre)
            = (Tok.ppElif).lexeme.data ++ line_capture pre from rfl]
      rw [take_chunk]
    | ppEndif =>
      simp only [List.cons_append, pp_error_loop, List.append_eq]
      rw [ih rest _ _ hnl']
      rw [show line_capture (Tok.ppEndif :: pre)
            = (Tok.ppEndif).lexeme.data ++ line_capture pre from rfl]
      rw [take_chunk]
    | ppError =>
      simp only [List.cons_append, pp_error_loop, List.append_eq]
      rw [ih rest _ _ hnl']
      rw [show line_capture (Tok.ppError :: pre)
            = (Tok.ppError).lexeme.data ++ line_capture pre from rfl]
      rw [take_chunk]

/-- C7 counterexample: on the line `#error oh no` the next token the
iterator returns is a preprocessing-error token, but its text is
`#error oh no` — the captured rest of the line prefixed with the
directive name — not the bare captured text (`oh no`, nor ` oh no` with
its leading whitespace). -/
theorem C7_counterexample :
    (nexttoken 10 (initState [Tok.ppError, Tok.space, Tok.ident "oh", Tok.space,
        Tok.ident "no", Tok.newline] emptyMacroLookup)).map Prod.fst =
      some (OutTok.error "#error oh no") ∧
    ("#error oh no" : String) ≠ "oh no" ∧ ("#error oh no" : String) ≠ " oh no" := by
  refine ⟨?_, ?_, ?_⟩
  · decide
  · decide
  · decide

/-- C7 (amended): for every `#error` directive, the rest of the logical
line is captured with each whitespace run preserved as one space, and the
next token returned by the iterator is a preprocessing-error token whose
text is `#error` followed by that capture, truncated to the 255 bytes of
the failure buffer (6 for the prefix, 249 for the capture). -/
theorem C7_error_directive_staged (f : Nat) (tbl : String → Option (List Tok))
    (pre rest : List Tok) (frs : List Frame) (rc i1 i2 i3 : Nat) (fstr : String)
    (hnl : Tok.newline ∉ pre) :
    nexttoken (f + 2)
      { stack := ⟨Tok.ppError :: (pre ++ Tok.newline :: rest), []⟩ :: frs, table := tbl,
        recursion_count := rc, isfail := false, failstr := fstr,
        ifs := i1, endifs := i2, reports := i3 } =
    some (OutTok.error ("#error" ++ String.mk ((line_capture pre).take 249)),
      { stack := ⟨Tok.newline :: rest, []⟩ :: frs, table := tbl,
        recursion_count := 0, isfail := false,
        failstr := "#error" ++ String.mk ((line_capture pre).take 249),
        ifs := i1, endifs := i2, reports := i3 }) := by
  have hcap := pp_error_loop_spec pre rest 249 [] hnl
  show nexttoken (f + 1 + 1) _ = _
  rw [nexttoken]
  simp [lexNS, lex_reset, Tok.isIdent, handle_pp_error]
  rw [hcap]
  rw [nexttoken]
  simp

/-- Witness for the amended C7 theorem on the line `#error oh no`. -/
theorem C7_witness :
    (Tok.newline ∉ [Tok.space, Tok.ident "oh", Tok.space, Tok.ident "no"]) ∧
    nexttoken 10
      { stack := ⟨Tok.ppError :: ([Tok.space, Tok.ident "oh", Tok.space, Tok.ident "no"]
          ++ Tok.newline :: []), []⟩ :: [], table := emptyMacroLookup,
        recursion_count := 0, isfail := false, failstr := "",
        ifs := 0, endifs := 0, reports := 0 } =
    some (OutTok.error ("#error" ++ String.mk ((line_capture [Tok.space, Tok.ident "oh",
        Tok.space, Tok.ident "no"]).take 249)),
      { stack := ⟨Tok.newline :: [], []⟩ :: [], table := emptyMacroLookup,
        recursion_count := 0, isfail := false,
        failstr := "#error" ++ String.mk ((line_capture [Tok.space, Tok.ident "oh",
          Tok.space, Tok.ident "no"]).take 249),
        ifs := 0, endifs := 0, reports := 0 }) :=
  ⟨by decide,
   C7_error_directive_staged 8 emptyMacroLookup
     [Tok.space, Tok.ident "oh", Tok.space, Tok.ident "no"] [] [] 0 0 0 0 ""
     (by decide)⟩

/-! ### `handle_macro_args`: argument collection for function-like macros -/

/-- Result of `handle_macro_args`: the identifier passes through unchanged
when no `(` follows; a staged failure; or a successful collection with the
parameter bindings (name, expanded text, original text), after which the
C code proceeds to substitution. -/
inductive MacroArgsOut where
  | passthrough
  | failed (msg : String)
  | ok (bindings : List (String × String × String))
deriving DecidableEq, Repr

/-- The collection loop of `handle_macro_args` (lines 1460-1583), reading
with `report_whitespace` on.  `paren` is the nesting depth, `buf`/`obuf`
the per-argument expanded and original buffers, `acc` the completed
arguments, `void` the void-call flag.  Parentheses nest; a comma at depth
one ends an argument; identifiers that are object-like macros (`tbl`) are
pre-expanded into `buf` only; a whitespace run appends one space to
`obuf` only when the argument already has content, but is appended to
`buf` unconditionally (the C code updates `origexprlen` but leaves
`exprlen` at the token length); end of input is fatal.  The void flag is
recomputed at each argument close exactly as in the source: an empty
expanded buffer records whether this was the sole argument and the list
just closed. -/
def collect_args (tbl : String → Option String) :
    List Tok → Nat → List Char → List Char →
    List (List Char × List Char) → Bool →
    Except String (List (List Char × List Char) × Bool × List Tok)
  | [], _, _, _, _, _ => .error "Unterminated macro list"
  | t :: ts, paren, buf, obuf, acc, void =>
    match t with
    | .punct c =>
      if c = '(' then collect_args tbl ts (paren + 1) (buf ++ ['(']) (obuf ++ ['(']) acc void
      else if c = ')' then
        if paren = 1 then
          let v := if buf.isEmpty then acc.isEmpty else void
          .ok (acc ++ [(buf, obuf)], v, ts)
        else collect_args tbl ts (paren - 1) (buf ++ [')']) (obuf ++ [')']) acc void
      else if c = ',' then
        if paren = 1 then
          let v := if buf.isEmpty then false else void
          collect_args tbl ts paren [] [] (acc ++ [(buf, obuf)]) v
        else collect_args tbl ts paren (buf ++ [',']) (obuf ++ [',']) acc void
      else collect_args tbl ts paren (buf ++ [c]) (obuf ++ [c]) acc void
    | .space =>
      collect_args tbl ts paren (buf ++ [' '])
        (obuf ++ (if buf.isEmpty then [] else [' '])) acc void
    | .ident s =>
      (match tbl s with
       | some defn => collect_args tbl ts paren (buf ++ defn.data) (obuf ++ s.data) acc void
       | none => collect_args tbl ts paren (buf ++ s.data) (obuf ++ s.data) acc void)
    | t => collect_args tbl ts paren (buf ++ t.lexeme.data) (obuf ++ t.lexeme.data) acc void

/-- The message of `failf(ctx, "macro '%s' passed %d arguments, but requires %d", ...)`. -/
def passed_args_msg (sym : String) (saw expected : Nat) : String :=
  "macro " ++ squote ++ sym ++ squote ++ " passed " ++ toString saw
    ++ " arguments, but requires " ++ toString expected

/-- Trailing-space trim applied to each collected argument (lines 1555-1571). -/
def trim_trailing_spaces (l : List Char) : List Char :=
  (l.reverse.dropWhile (fun c => c = ' ')).reverse

/-- `handle_macro_args` (lines 1438-1615): `expected` is 0 for the `()`
declaration sentinel -1; without a `(` the replacement is abandoned; the
arguments are collected; a sole argument with an empty expanded buffer at
a `()`-declared macro counts as zero arguments; any remaining arity
mismatch fails with the `passed N arguments` message; otherwise the
parameter bindings (trimmed, expanded and original text) are produced and
the C code pushes the substituted body. -/
def handle_macro_args (tbl : String → Option String) (sym : String)
    (parameters : List String) (paramcount : Int) (toks : List Tok) : MacroArgsOut :=
  let expected : Nat := if paramcount < 0 then 0 else paramcount.toNat
  match lexNS toks with
  | some (Tok.punct '(', rest) =>
    (match collect_args tbl rest 1 [] [] [] false with
     | .error msg => .failed msg
     | .ok (args, void, _) =>
       let saw := if expected = 0 ∧ args.length = 1 ∧ void then 0 else args.length
       if saw ≠ expected then .failed (passed_args_msg sym saw expected)
       else .ok (List.zip parameters ((args.take expected).map
         (fun a => (String.mk (trim_trailing_spaces a.1),
                    String.mk (trim_trailing_spaces a.2))))))
  | _ => .passthrough

/-- C6: the claim (and spec section 4.7, and the comment at line 1496 of
the source) requires a whitespace-only argument list of a `()`-declared
macro to register as a void call and succeed.  The code suppresses
leading whitespace only in the original-text buffer (`origexprlen`) and
still appends it to the expanded buffer (`exprlen` keeps the token
length), so `a( )` collects one non-void argument and fails with
"macro 'a' passed 1 arguments, but requires 0", while `a()` succeeds and
a genuine arity mismatch fails as the claim states. -/
theorem C6_whitespace_void_call_fails :
    handle_macro_args (fun _ => none) "a" [] (-1)
      [Tok.punct '(', Tok.space, Tok.punct ')'] =
      MacroArgsOut.failed (passed_args_msg "a" 1 0) ∧
    handle_macro_args (fun _ => none) "a" [] (-1)
      [Tok.punct '(', Tok.punct ')'] = MacroArgsOut.ok [] ∧
    handle_macro_args (fun _ => none) "m" ["x", "y"] 2
      [Tok.punct '(', Tok.ident "q", Tok.punct ')'] =
      MacroArgsOut.failed (passed_args_msg "m" 1 2) := by
  refine ⟨?_, ?_, ?_⟩
  · decide
  · decide
  · decide

/-! ### Conditional balance -/

theorem condCount_cons (fr : Frame) (frs : List Frame) :
    condCount (fr :: frs) = fr.conds.length + condCount frs := by
  simp [condCount]

theorem addCondAtIdx_count (stk : List Frame) :
    ∀ (i : Nat) (ty : CondTy) (ch : Bool), i < stk.length →
    condCount (addCondAtIdx stk i ty ch) = condCount stk + 1 := by
  induction stk with
  | nil => intro i ty ch h; simp at h
  | cons fr frs ih =>
    intro i ty ch h
    cases i with
    | zero =>
      simp only [addCondAtIdx, condCount_cons]
      simp
      omega
    | succ i =>
      simp only [addCondAtIdx, condCount_cons]
      rw [ih i ty ch (by simpa using h)]
      omega

/-- The state components conserved by expression evaluation: the three
balance counters, the total number of open conditionals, and a stack that
never shrinks. -/
def StatePres (st st' : PPState) : Prop :=
  st'.ifs = st.ifs ∧ st'.endifs = st.endifs ∧ st'.reports = st.reports ∧
  condCount st'.stack = condCount st.stack ∧ st.stack.length ≤ st'.stack.length

theorem StatePres.self (st : PPState) : StatePres st st :=
  ⟨Eq.refl _, Eq.refl _, Eq.refl _, Eq.refl _, le_refl _⟩

theorem StatePres.trans {a b c : PPState} (h1 : StatePres a b) (h2 : StatePres b c) :
    StatePres a c := by
  obtain ⟨x1, x2, x3, x4, x5⟩ := h1
  obtain ⟨y1, y2, y3, y4, y5⟩ := h2
  exact ⟨y1.trans x1, y2.trans x2, y3.trans x3, y4.trans x4, x5.trans y5⟩

theorem fail_pres (st : PPState) (msg : String) : StatePres st (st.fail msg) :=
  ⟨rfl, rfl, rfl, rfl, le_refl _⟩

theorem setTopToks_pres (st : PPState) (ts : List Tok) : StatePres st (setTopToks st ts) := by
  unfold setTopToks
  cases hs : st.stack with
  | nil => exact StatePres.self st
  | cons fr frs =>
    refine ⟨rfl, rfl, rfl, ?_, ?_⟩ <;> simp [hs, condCount_cons]

theorem handle_pp_identifier_pres (st : PPState) (s : String) :
    StatePres st (handle_pp_identifier st s).2 := by
  unfold handle_pp_identifier
  split
  · exact ⟨rfl, rfl, rfl, rfl, le_refl _⟩
  · dsimp only
    split
    · exact ⟨rfl, rfl, rfl, rfl, le_refl _⟩
    · refine ⟨rfl, rfl, rfl, ?_, ?_⟩ <;> simp [condCount_cons]

theorem lex_reset_pres (st : PPState) (fr : Frame) (frs : List Frame) (ts : List Tok)
    (tX : Tok) (hs : st.stack = fr :: frs) :
    StatePres st (lex_reset { st with stack := ⟨ts, fr.conds⟩ :: frs } tX) := by
  unfold lex_reset
  split <;> (refine ⟨Eq.refl _, Eq.refl _, Eq.refl _, ?_, ?_⟩ <;> simp [hs, condCount_cons])

theorem reduce_loop_pres :
    ∀ (f : Nat) (st : PPState) (out : List RpnTok) (ops : List Tok) (prev : Tok)
      (r : Option (List RpnTok) × PPState),
      reduce_loop f st out ops prev = some r → StatePres st r.2 := by
  intro f
  induction f with
  | zero => intro st out ops prev r h; simp [reduce_loop] at h
  | succ f ih =>
    intro st out ops prev r h
    rw [reduce_loop] at h
    split at h
    · -- include stack empty
      split at h <;> (injection h with h; subst h)
      · exact fail_pres _ _
      · exact StatePres.self _
    · rename_i fr frs hs
      split at h
      · -- frame exhausted: the expression ends here
        have hp : StatePres st ({ st with
            stack := ⟨[], fr.conds⟩ :: frs, recursion_count := 0 } : PPState) := by
          refine ⟨Eq.refl _, Eq.refl _, Eq.refl _, ?_, ?_⟩ <;> simp [hs, condCount_cons]
        split at h <;> (injection h with h; subst h)
        · exact hp.trans (fail_pres _ _)
        · exact hp
      · rename_i t0 ts hlex
        split at h
        rename_i t1 isl hcl
        have hst2 : ∀ tX, StatePres st (lex_reset
            { st with stack := ⟨ts, fr.conds⟩ :: frs } tX) :=
          fun tX => lex_reset_pres st fr frs ts tX hs
        split at h
        · -- newline
          split at h <;> (injection h with h; subst h)
          · exact (hst2 _).trans (fail_pres _ _)
          · exact hst2 _
        · -- identifier
          rename_i s
          split at h
          · rename_i st3 hid
            refine StatePres.trans ?_ (ih _ _ _ _ _ h)
            have hq := handle_pp_identifier_pres
              (lex_reset { st with stack := ⟨ts, fr.conds⟩ :: frs } (Tok.ident s)) s
            rw [hid] at hq
            exact (hst2 _).trans hq
          · rename_i st3 hid
            have hpre : StatePres st st3 := by
              have hq := handle_pp_identifier_pres
                (lex_reset { st with stack := ⟨ts, fr.conds⟩ :: frs } (Tok.ident s)) s
              rw [hid] at hq
              exact (hst2 _).trans hq
            split at h
            · split at h
              · injection h with h; subst h
                exact hpre.trans ((setTopToks_pres _ _).trans (fail_pres _ _))
              · exact hpre.trans ((setTopToks_pres _ _).trans (ih _ _ _ _ _ h))
            · exact hpre.trans (ih _ _ _ _ _ h)
        · -- integer literal
          exact (hst2 _).trans (ih _ _ _ _ _ h)
        · -- single-character token
          split at h
          · exact (hst2 _).trans (ih _ _ _ _ _ h)
          · split at h
            · split at h
              · injection h with h; subst h
                exact (hst2 _).trans (fail_pres _ _)
              · exact (hst2 _).trans (ih _ _ _ _ _ h)
            · split at h
              · injection h with h; subst h
                exact (hst2 _).trans ((setTopToks_pres _ _).trans (fail_pres _ _))
              · exact (hst2 _).trans (ih _ _ _ _ _ h)
        · -- any other operator token
          split at h
          · injection h with h; subst h
            exact (hst2 _).trans ((setTopToks_pres _ _).trans (fail_pres _ _))
          · exact (hst2 _).trans (ih _ _ _ _ _ h)

theorem reduce_pp_expression_pres (f : Nat) (st : PPState) (r : Int × PPState)
    (h : reduce_pp_expression f st = some r) : StatePres st r.2 := by
  unfold reduce_pp_expression at h
  rw [Option.map_eq_some'] at h
  obtain ⟨a, ha, hmap⟩ := h
  have hp := reduce_loop_pres f st [] [] Tok.unknown a ha
  subst hmap
  rcases a with ⟨o, st'⟩
  cases o with
  | none => exact hp
  | some out =>
    simp only
    split
    · exact hp.trans (fail_pres _ _)
    · exact hp

/-- The conditional-balance invariant: conditionals popped by `#endif`,
plus unterminated reports, plus the conditionals still open, account for
every conditional pushed. -/
def INV (st : PPState) : Prop :=
  st.endifs + st.reports + condCount st.stack = st.ifs

theorem INV_of_pres {a b : PPState} (hp : StatePres a b) (h : INV a) : INV b := by
  obtain ⟨e1, e2, e3, e4, _⟩ := hp
  unfold INV at h ⊢
  omega

theorem lex_reset_stack (st : PPState) (t : Tok) : (lex_reset st t).stack = st.stack := by
  unfold lex_reset
  split <;> rfl

theorem lex_reset_counters (st : PPState) (t : Tok) :
    (lex_reset st t).ifs = st.ifs ∧ (lex_reset st t).endifs = st.endifs ∧
    (lex_reset st t).reports = st.reports := by
  unfold lex_reset
  split <;> exact ⟨rfl, rfl, rfl⟩

theorem handle_pp_error_inv (st : PPState) (h : INV st) : INV (handle_pp_error st) := by
  unfold handle_pp_error
  split
  · exact h
  · rename_i fr frs hs
    unfold INV at h ⊢
    simp only [hs, condCount_cons] at h ⊢
    omega

theorem handle_pp_ifdef_inv (st : PPState) (b : Bool) (h : INV st) :
    INV (handle_pp_ifdef st b) := by
  unfold handle_pp_ifdef
  split
  · exact h
  · rename_i fr frs hs
    unfold INV at h ⊢
    simp only [hs, condCount_cons] at h
    split
    · rename_i sym ts hl
      rcases Bool.eq_false_or_eq_true (require_newline ts).1 with hb | hb
      · simp [hb, addCondAtIdx, condCount_cons] <;> omega
      · simp [hb, PPState.fail, condCount_cons] <;> omega
    · simp [PPState.fail, condCount_cons] <;> omega
    · simp [PPState.fail, condCount_cons] <;> omega

theorem unterminated_inv (st : PPState) (h : INV st) :
    INV (unterminated_pp_condition st) := by
  unfold unterminated_pp_condition
  split
  · exact h
  · rename_i fr frs hs
    split
    · exact h
    · rename_i c cs hc
      unfold INV at h ⊢
      simp only [PPState.fail, hs, hc, condCount_cons, List.length_cons] at h ⊢
      omega

theorem handle_pp_endif_inv (st : PPState) (h : INV st) : INV (handle_pp_endif st) := by
  unfold handle_pp_endif
  split
  · exact h
  · rename_i fr frs hs
    unfold INV at h ⊢
    simp only [hs, condCount_cons] at h
    rcases Bool.eq_false_or_eq_true (require_newline fr.toks).1 with hb | hb
    · split
      · simp [hb, PPState.fail, condCount_cons] <;> omega
      · rename_i c cs hc
        simp [hb, hc, condCount_cons] at h ⊢ <;> omega
    · simp [hb, PPState.fail, condCount_cons] <;> omega

theorem handle_pp_else_inv (st : PPState) (h : INV st) : INV (handle_pp_else st) := by
  unfold handle_pp_else
  split
  · exact h
  · rename_i fr frs hs
    unfold INV at h ⊢
    simp only [hs, condCount_cons] at h
    rcases Bool.eq_false_or_eq_true (require_newline fr.toks).1 with hb | hb
    · split
      · simp [hb, PPState.fail, condCount_cons] <;> omega
      · rename_i c cs hc
        split
        · simp [hb, PPState.fail, condCount_cons] <;> omega
        · simp [hb, hc, condCount_cons] at h ⊢ <;> omega
    · simp [hb, PPState.fail, condCount_cons] <;> omega

theorem handle_pp_if_inv (f : Nat) (st : PPState) (hne : st.stack ≠ [])
    (h : INV st) (st' : PPState) (hh : handle_pp_if f st = some st') : INV st' := by
  unfold handle_pp_if at hh
  rw [Option.map_eq_some'] at hh
  obtain ⟨r, hr, hmk⟩ := hh
  have hp := reduce_pp_expression_pres f st r hr
  subst hmk
  split
  · exact INV_of_pres hp h
  · obtain ⟨e1, e2, e3, e4, e5⟩ := hp
    have hd : 1 ≤ st.stack.length := by
      cases hq : st.stack with
      | nil => exact absurd hq hne
      | cons a b => simp
    have hidx : r.2.stack.length - st.stack.length < r.2.stack.length := by omega
    unfold INV at h ⊢
    simp only [addCondAtIdx_count r.2.stack _ _ _ hidx]
    omega

theorem handle_pp_elif_inv (f : Nat) (st : PPState) (h : INV st) (st' : PPState)
    (hh : handle_pp_elif f st = some st') : INV st' := by
  unfold handle_pp_elif at hh
  rw [Option.map_eq_some'] at hh
  obtain ⟨r, hr, hmk⟩ := hh
  have hp := reduce_pp_expression_pres f st r hr
  have hinv2 : INV r.2 := INV_of_pres hp h
  subst hmk
  split
  · exact hinv2
  · split
    · exact hinv2
    · rename_i fr frs hs
      split
      · exact hinv2
      · rename_i c cs hc
        split
        · exact hinv2
        · unfold INV at hinv2 ⊢
          simp only [hs, hc, condCount_cons, List.length_cons] at hinv2 ⊢
          omega

theorem handle_pp_identifier_inv (st : PPState) (s : String) (h : INV st) :
    INV (handle_pp_identifier st s).2 :=
  INV_of_pres (handle_pp_identifier_pres st s) h

theorem handle_pp_identifier_inv2 {st : PPState} {s : String} {b : Bool} {st2 : PPState}
    (h : INV st) (he : handle_pp_identifier st s = (b, st2)) : INV st2 := by
  have hq := handle_pp_identifier_inv st s h
  rw [he] at hq
  exact hq

theorem nexttoken_inv :
    ∀ (f : Nat) (st : PPState) (o : OutTok) (st' : PPState),
      nexttoken f st = some (o, st') → INV st → INV st' := by
  intro f
  induction f with
  | zero => intro st o st' h hi; simp [nexttoken] at h
  | succ f ih =>
    intro st o st' h hi
    rw [nexttoken] at h
    split at h
    · -- staged failure returned
      injection h with h
      rw [Prod.mk.injEq] at h
      rw [← h.2]
      exact hi
    · split at h
      · -- end of input
        injection h with h
        rw [Prod.mk.injEq] at h
        rw [← h.2]
        exact hi
      · rename_i fr frs hs
        split at h
        · -- frame exhausted
          split at h
          · -- open conditionals: report one
            refine ih _ _ _ h (unterminated_inv _ ?_)
            unfold INV at hi ⊢
            simp only [hs, condCount_cons] at hi ⊢
            omega
          · -- pop the frame (it has no conditionals)
            rename_i hcnil
            refine ih _ _ _ h ?_
            unfold INV at hi ⊢
            simp only [hs, condCount_cons, hcnil, List.length_nil] at hi ⊢
            omega
        · rename_i t ts hlex
          have hst2 : INV (lex_reset ({ st with
              stack := ⟨ts, fr.conds⟩ :: frs } : PPState) t) := by
            refine INV_of_pres (lex_reset_pres st fr frs ts t hs) hi
          have hst2ne : (lex_reset ({ st with
              stack := ⟨ts, fr.conds⟩ :: frs } : PPState) t).stack ≠ [] := by
            rw [lex_reset_stack]
            simp
          split at h
          · exact ih _ _ _ h (handle_pp_ifdef_inv _ _ hst2)
          · exact ih _ _ _ h (handle_pp_ifdef_inv _ _ hst2)
          · -- #if
            rw [Option.bind_eq_some] at h
            obtain ⟨stm, hm, hn⟩ := h
            exact ih _ _ _ hn (handle_pp_if_inv f _ hst2ne hst2 stm hm)
          · -- #elif
            rw [Option.bind_eq_some] at h
            obtain ⟨stm, hm, hn⟩ := h
            exact ih _ _ _ hn (handle_pp_elif_inv f _ hst2 stm hm)
          · exact ih _ _ _ h (handle_pp_endif_inv _ hst2)
          · exact ih _ _ _ h (handle_pp_else_inv _ hst2)
          · split at h
            · -- skipping: token discarded
              exact ih _ _ _ h hst2
            · split at h
              · exact ih _ _ _ h (handle_pp_error_inv _ hst2)
              · -- identifier
                split at h
                · rename_i st3 hid
                  exact ih _ _ _ h (handle_pp_identifier_inv2 hst2 hid)
                · rename_i st3 hid
                  injection h with h
                  rw [Prod.mk.injEq] at h
                  rw [← h.2]
                  exact handle_pp_identifier_inv2 hst2 hid
              · exact ih _ _ _ h hst2
              · injection h with h
                rw [Prod.mk.injEq] at h
                rw [← h.2]
                exact hst2

theorem nexttoken_eoi_stack :
    ∀ (f : Nat) (st st' : PPState), nexttoken f st = some (OutTok.eoi, st') →
      st'.stack = [] := by
  intro f
  induction f with
  | zero => intro st st' h; simp [nexttoken] at h
  | succ f ih =>
    intro st st' h
    rw [nexttoken] at h
    split at h
    · simp at h
    · split at h
      · rename_i hs
        injection h with h
        rw [Prod.mk.injEq] at h
        rw [← h.2]
        exact hs
      · split at h
        · split at h
          · exact ih _ _ h
          · exact ih _ _ h
        · split at h
          · exact ih _ _ h
          · exact ih _ _ h
          · rw [Option.bind_eq_some] at h
            obtain ⟨stm, hm, hn⟩ := h
            exact ih _ _ hn
          · rw [Option.bind_eq_some] at h
            obtain ⟨stm, hm, hn⟩ := h
            exact ih _ _ hn
          · exact ih _ _ h
          · exact ih _ _ h
          · split at h
            · exact ih _ _ h
            · split at h
              · exact ih _ _ h
              · split at h
                · exact ih _ _ h
                · simp at h
              · exact ih _ _ h
              · simp at h

theorem runToEnd_balanced :
    ∀ (f : Nat) (st s' : PPState), runToEnd f st = some s' → INV st →
      s'.endifs + s'.reports = s'.ifs := by
  intro f
  induction f with
  | zero => intro st s' h hi; simp [runToEnd] at h
  | succ f ih =>
    intro st s' h hi
    rw [runToEnd] at h
    split at h
    · exact absurd h (by simp)
    · rename_i st2 heq
      injection h with h
      subst h
      have hinv := nexttoken_inv _ _ _ _ heq hi
      have hstk := nexttoken_eoi_stack _ _ _ heq
      unfold INV at hinv
      rw [hstk] at hinv
      simp [condCount] at hinv
      omega
    · rename_i o st2 hne heq
      exact ih _ _ h (nexttoken_inv _ _ _ _ heq hi)

/-- C9: for any input over the modelled token alphabet, once the
iteration reaches end of input, the number of `#endif` directives that
popped a conditional plus the number of unterminated-conditional reports
equals the number of `#if`/`#ifdef`/`#ifndef` directives that pushed one:
every conditional pushed is popped exactly once, by its `#endif` or by an
unterminated report. -/
theorem C9_conditional_balance (f : Nat) (st : PPState) (a b c : Nat)
    (h0 : st.ifs = 0 ∧ st.endifs = 0 ∧ st.reports = 0 ∧ condCount st.stack = 0)
    (h : runCounters f st = some (a, b, c)) :
    a + b = c := by
  unfold runCounters at h
  rw [Option.map_eq_some'] at h
  obtain ⟨s1, hs1, hmk⟩ := h
  have hb := runToEnd_balanced f st s1 hs1 (by
    obtain ⟨h1, h2, h3, h4⟩ := h0
    unfold INV
    omega)
  rw [Prod.mk.injEq, Prod.mk.injEq] at hmk
  obtain ⟨ha, hbb, hc⟩ := hmk
  rw [← ha, ← hbb, ← hc]
  exact hb

/-- Witness for C9 on a source with one balanced `#if` and one
unterminated `#ifdef`. -/
theorem C9_witness :
    ((initState [Tok.ppIf, Tok.intlit 1, Tok.newline, Tok.ppEndif, Tok.newline,
        Tok.ppIfdef, Tok.ident "X", Tok.newline] emptyMacroLookup).ifs = 0 ∧
      (initState [Tok.ppIf, Tok.intlit 1, Tok.newline, Tok.ppEndif, Tok.newline,
        Tok.ppIfdef, Tok.ident "X", Tok.newline] emptyMacroLookup).endifs = 0 ∧
      (initState [Tok.ppIf, Tok.intlit 1, Tok.newline, Tok.ppEndif, Tok.newline,
        Tok.ppIfdef, Tok.ident "X", Tok.newline] emptyMacroLookup).reports = 0 ∧
      condCount (initState [Tok.ppIf, Tok.intlit 1, Tok.newline, Tok.ppEndif, Tok.newline,
        Tok.ppIfdef, Tok.ident "X", Tok.newline] emptyMacroLookup).stack = 0) ∧
    runCounters 60 (initState [Tok.ppIf, Tok.intlit 1, Tok.newline, Tok.ppEndif, Tok.newline,
      Tok.ppIfdef, Tok.ident "X", Tok.newline] emptyMacroLookup) = some (1, 1, 2) ∧
    1 + 1 = 2 :=
  ⟨⟨by decide, by decide, by decide, by decide⟩,
   by decide,
   C9_conditional_balance 60
     (initState [Tok.ppIf, Tok.intlit 1, Tok.newline, Tok.ppEndif, Tok.newline,
       Tok.ppIfdef, Tok.ident "X", Tok.newline] emptyMacroLookup) 1 1 2
     ⟨by decide, by decide, by decide, by decide⟩ (by decide)⟩

end Mojoshader
